import Mathlib

/-!
Verification of the ordered-entity persistence core of a personal-portfolio
content API. The Mongo document store backing the repositories is modelled as
a list of documents; dates and timestamps are modelled as integers (datetime
values are totally ordered and only compared); validation failures are
modelled with `Except`.
-/

/-- Document of an ordered collection (projects, skills, ...), restricted to
the fields the reorder algorithm of `ProjectRepository.reorder` and
`SkillRepository.reorder` reads or writes: `_id`, `profile_id`,
`order_index`. -/
structure MDoc where
  id : String
  profile_id : String
  order_index : Int
  deriving DecidableEq

/-- Model of `find_one({"_id": entity_id})` as used by `get_by_id`: the first
stored document whose id equals `eid`, if any. -/
def getDoc : List MDoc → String → Option MDoc
  | [], _ => none
  | d :: rest, eid => if d.id = eid then some d else getDoc rest eid

/-- Model of `update_one({"_id": entity_id}, {"$set": {"order_index": v}})`:
rewrite the `order_index` of the first document whose id matches. -/
def setIndexFirst : List MDoc → String → Int → List MDoc
  | [], _, _ => []
  | d :: rest, eid, v =>
    if d.id = eid then { d with order_index := v } :: rest
    else d :: setIndexFirst rest eid v

/-- Model of the forward-move bulk shift: `update_many` with filter
`profile_id == pid`, `order_index` in `(lo, hi]`, and `{"$inc": {"order_index": -1}}`. -/
def shiftDown (store : List MDoc) (pid : String) (lo hi : Int) : List MDoc :=
  store.map fun d =>
    if d.profile_id = pid ∧ lo < d.order_index ∧ d.order_index ≤ hi then
      { d with order_index := d.order_index - 1 }
    else d

/-- Model of the backward-move bulk shift: `update_many` with filter
`profile_id == pid`, `order_index` in `[lo, hi)`, and `{"$inc": {"order_index": 1}}`. -/
def shiftUp (store : List MDoc) (pid : String) (lo hi : Int) : List MDoc :=
  store.map fun d =>
    if d.profile_id = pid ∧ lo ≤ d.order_index ∧ d.order_index < hi then
      { d with order_index := d.order_index + 1 }
    else d

/-- Model of `ProjectRepository.reorder` / `SkillRepository.reorder` (the two
method bodies are textually identical): fetch the entity by id, returning the
store unchanged when it is absent; no-op when its index already equals
`new_order_index`; otherwise bulk-shift the sibling range and then set the
moved document's index. -/
def reorder (store : List MDoc) (profile_id entity_id : String)
    (new_order_index : Int) : List MDoc :=
  match getDoc store entity_id with
  | none => store
  | some entity =>
    let old_index := entity.order_index
    if old_index = new_order_index then store
    else
      let shifted :=
        if old_index < new_order_index then
          shiftDown store profile_id old_index new_order_index
        else
          shiftUp store profile_id new_order_index old_index
      setIndexFirst shifted entity_id new_order_index

/-- Documents of one owner, in store order: model of the filter
`{"profile_id": profile_id}` used by `get_all_ordered`. -/
def ownerDocs : List MDoc → String → List MDoc
  | [], _ => []
  | d :: rest, pid =>
    if d.profile_id = pid then d :: ownerDocs rest pid else ownerDocs rest pid

/-- Insertion of a document into a list that is sorted ascending by
`order_index`. -/
def insertByIndex (d : MDoc) : List MDoc → List MDoc
  | [] => [d]
  | e :: rest =>
    if d.order_index ≤ e.order_index then d :: e :: rest
    else e :: insertByIndex d rest

/-- Ascending insertion sort by `order_index`, modelling the cursor
`sort("order_index", 1)`. -/
def sortByIndex : List MDoc → List MDoc
  | [] => []
  | d :: rest => insertByIndex d (sortByIndex rest)

/-- Model of `get_all_ordered(profile_id, ascending=True)`. -/
def get_all_ordered (store : List MDoc) (profile_id : String) : List MDoc :=
  sortByIndex (ownerDocs store profile_id)

/-- The `order_index` values of one owner's documents, in store order. -/
def ownerIndices (store : List MDoc) (pid : String) : List Int :=
  (ownerDocs store pid).map MDoc.order_index

/-- Per-document effect of a completed reorder, as the specification describes
it: the moved entity receives the target index; when moving forward the
owner's documents with index in `(old, new]` are decremented; when moving
backward those with index in `[new, old)` are incremented; everything else is
unchanged. -/
def moveTarget (pid eid : String) (oldIdx newIdx : Int) (d : MDoc) : MDoc :=
  if d.id = eid then { d with order_index := newIdx }
  else if d.profile_id = pid ∧ oldIdx < newIdx ∧ oldIdx < d.order_index ∧
      d.order_index ≤ newIdx then
    { d with order_index := d.order_index - 1 }
  else if d.profile_id = pid ∧ newIdx < oldIdx ∧ newIdx ≤ d.order_index ∧
      d.order_index < oldIdx then
    { d with order_index := d.order_index + 1 }
  else d

/-- Index-level effect of a reorder on one owner's collection, given that the
moved entity sits at `oldIdx`. -/
def slideMap (oldIdx newIdx i : Int) : Int :=
  if i = oldIdx then newIdx
  else if oldIdx < newIdx ∧ oldIdx < i ∧ i ≤ newIdx then i - 1
  else if newIdx < oldIdx ∧ newIdx ≤ i ∧ i < oldIdx then i + 1
  else i

theorem moveTarget_id (pid eid : String) (oldIdx newIdx : Int) (d : MDoc) :
    (moveTarget pid eid oldIdx newIdx d).id = d.id := by
  unfold moveTarget; split_ifs <;> rfl

theorem moveTarget_profile_id (pid eid : String) (oldIdx newIdx : Int) (d : MDoc) :
    (moveTarget pid eid oldIdx newIdx d).profile_id = d.profile_id := by
  unfold moveTarget; split_ifs <;> rfl

theorem slideMap_injective (oldIdx newIdx : Int) :
    Function.Injective (slideMap oldIdx newIdx) := by
  intro a b h
  unfold slideMap at h
  split_ifs at h <;> omega

theorem getDoc_eq_some {store : List MDoc} {me : MDoc} {eid : String}
    (hN : (store.map MDoc.id).Nodup) (hmem : me ∈ store) (hid : me.id = eid) :
    getDoc store eid = some me := by
  induction store with
  | nil => cases hmem
  | cons d rest ih =>
    simp only [List.map_cons, List.nodup_cons] at hN
    rcases List.mem_cons.mp hmem with h | h
    · subst h
      simp [getDoc, hid]
    · have hne : ¬ d.id = eid := by
        intro he
        exact hN.1 (by rw [he, ← hid]; exact List.mem_map_of_mem MDoc.id h)
      simp only [getDoc, if_neg hne]
      exact ih hN.2 h

theorem getDoc_eq_none {store : List MDoc} {eid : String}
    (h : ∀ d ∈ store, d.id ≠ eid) : getDoc store eid = none := by
  induction store with
  | nil => rfl
  | cons d rest ih =>
    simp only [getDoc, if_neg (h d (List.mem_cons_self d rest))]
    exact ih fun x hx => h x (List.mem_cons_of_mem d hx)

theorem unique_by_id {store : List MDoc} {me d : MDoc}
    (hN : (store.map MDoc.id).Nodup) (hmem : me ∈ store) (hd : d ∈ store)
    (h : d.id = me.id) : d = me :=
  List.inj_on_of_nodup_map hN hd hmem h

theorem map_id_of_eq {α : Type} {l : List α} {f : α → α}
    (h : ∀ x ∈ l, f x = x) : l.map f = l := by
  induction l with
  | nil => rfl
  | cons a t ih =>
    rw [List.map_cons, h a (List.mem_cons_self a t),
      ih fun x hx => h x (List.mem_cons_of_mem a hx)]

theorem setIndexFirst_eq_map {store : List MDoc} {eid : String} {v : Int}
    (hN : (store.map MDoc.id).Nodup) :
    setIndexFirst store eid v =
      store.map fun d => if d.id = eid then { d with order_index := v } else d := by
  induction store with
  | nil => rfl
  | cons d rest ih =>
    simp only [List.map_cons, List.nodup_cons] at hN
    by_cases h : d.id = eid
    · simp only [setIndexFirst, if_pos h, List.map_cons]
      congr 1
      refine (map_id_of_eq ?_).symm
      intro x hx
      rw [if_neg]
      intro he
      exact hN.1 (by rw [h, ← he]; exact List.mem_map_of_mem MDoc.id hx)
    · simp only [setIndexFirst, if_neg h, List.map_cons]
      rw [ih hN.2]

theorem shiftDown_map_id (store : List MDoc) (pid : String) (lo hi : Int) :
    (shiftDown store pid lo hi).map MDoc.id = store.map MDoc.id := by
  simp only [shiftDown, List.map_map]
  apply List.map_congr_left
  intro d _
  simp only [Function.comp_apply]
  split_ifs <;> rfl

theorem shiftUp_map_id (store : List MDoc) (pid : String) (lo hi : Int) :
    (shiftUp store pid lo hi).map MDoc.id = store.map MDoc.id := by
  simp only [shiftUp, List.map_map]
  apply List.map_congr_left
  intro d _
  simp only [Function.comp_apply]
  split_ifs <;> rfl

theorem reorder_noop {store : List MDoc} {pid eid : String} {newIdx : Int}
    {me : MDoc} (hN : (store.map MDoc.id).Nodup) (hmem : me ∈ store)
    (hid : me.id = eid) (heq : me.order_index = newIdx) :
    reorder store pid eid newIdx = store := by
  unfold reorder
  rw [getDoc_eq_some hN hmem hid]
  simp [heq]

theorem moveTarget_mover {pid eid : String} {oldIdx newIdx : Int} {d : MDoc}
    (hde : d.id = eid) :
    moveTarget pid eid oldIdx newIdx d = { d with order_index := newIdx } := by
  unfold moveTarget
  rw [if_pos hde]

theorem moveTarget_other_forward {pid eid : String} {oldIdx newIdx : Int}
    {d : MDoc} (hde : ¬ d.id = eid) (hlt : oldIdx < newIdx) :
    moveTarget pid eid oldIdx newIdx d =
      if d.profile_id = pid ∧ oldIdx < d.order_index ∧ d.order_index ≤ newIdx then
        { d with order_index := d.order_index - 1 }
      else d := by
  unfold moveTarget
  rw [if_neg hde]
  by_cases hc : d.profile_id = pid ∧ oldIdx < d.order_index ∧ d.order_index ≤ newIdx
  · rw [if_pos (show d.profile_id = pid ∧ oldIdx < newIdx ∧ oldIdx < d.order_index ∧
        d.order_index ≤ newIdx from ⟨hc.1, hlt, hc.2.1, hc.2.2⟩), if_pos hc]
  · rw [if_neg (show ¬ (d.profile_id = pid ∧ oldIdx < newIdx ∧ oldIdx < d.order_index ∧
        d.order_index ≤ newIdx) from fun hco => hc ⟨hco.1, hco.2.2.1, hco.2.2.2⟩),
      if_neg (show ¬ (d.profile_id = pid ∧ newIdx < oldIdx ∧ newIdx ≤ d.order_index ∧
        d.order_index < oldIdx) from fun hco => absurd (lt_trans hco.2.1 hlt) (lt_irrefl _)),
      if_neg hc]

theorem moveTarget_other_backward {pid eid : String} {oldIdx newIdx : Int}
    {d : MDoc} (hde : ¬ d.id = eid) (hgt : newIdx < oldIdx) :
    moveTarget pid eid oldIdx newIdx d =
      if d.profile_id = pid ∧ newIdx ≤ d.order_index ∧ d.order_index < oldIdx then
        { d with order_index := d.order_index + 1 }
      else d := by
  unfold moveTarget
  rw [if_neg hde,
    if_neg (show ¬ (d.profile_id = pid ∧ oldIdx < newIdx ∧ oldIdx < d.order_index ∧
      d.order_index ≤ newIdx) from fun hco => absurd (lt_trans hgt hco.2.1) (lt_irrefl _))]
  by_cases hc : d.profile_id = pid ∧ newIdx ≤ d.order_index ∧ d.order_index < oldIdx
  · rw [if_pos (show d.profile_id = pid ∧ newIdx < oldIdx ∧ newIdx ≤ d.order_index ∧
      d.order_index < oldIdx from ⟨hc.1, hgt, hc.2.1, hc.2.2⟩), if_pos hc]
  · rw [if_neg (show ¬ (d.profile_id = pid ∧ newIdx < oldIdx ∧ newIdx ≤ d.order_index ∧
      d.order_index < oldIdx) from fun hco => hc ⟨hco.1, hco.2.2.1, hco.2.2.2⟩), if_neg hc]

theorem reorder_eq_map {store : List MDoc} {pid eid : String} {newIdx : Int}
    {me : MDoc} (hN : (store.map MDoc.id).Nodup) (hmem : me ∈ store)
    (hid : me.id = eid) (hne : me.order_index ≠ newIdx) :
    reorder store pid eid newIdx =
      store.map (moveTarget pid eid me.order_index newIdx) := by
  unfold reorder
  rw [getDoc_eq_some hN hmem hid]
  simp only [if_neg hne]
  by_cases hlt : me.order_index < newIdx
  · simp only [if_pos hlt]
    have hids : ((shiftDown store pid me.order_index newIdx).map MDoc.id).Nodup := by
      rw [shiftDown_map_id]; exact hN
    rw [setIndexFirst_eq_map hids]
    simp only [shiftDown, List.map_map]
    apply List.map_congr_left
    intro d hd
    simp only [Function.comp_apply]
    by_cases hde : d.id = eid
    · have hdme : d = me := unique_by_id hN hmem hd (hde.trans hid.symm)
      subst hdme
      rw [moveTarget_mover hde,
        if_neg (show ¬ (d.profile_id = pid ∧ d.order_index < d.order_index ∧
          d.order_index ≤ newIdx) from fun hco => absurd hco.2.1 (lt_irrefl _)),
        if_pos hde]
    · rw [moveTarget_other_forward hde hlt]
      by_cases hc : d.profile_id = pid ∧ me.order_index < d.order_index ∧
          d.order_index ≤ newIdx
      · rw [if_pos hc,
          if_neg (show ¬ ({ d with order_index := d.order_index - 1 } : MDoc).id = eid
            from hde)]
      · rw [if_neg hc, if_neg hde]
  · have hgt : newIdx < me.order_index := by omega
    simp only [if_neg hlt]
    have hids : ((shiftUp store pid newIdx me.order_index).map MDoc.id).Nodup := by
      rw [shiftUp_map_id]; exact hN
    rw [setIndexFirst_eq_map hids]
    simp only [shiftUp, List.map_map]
    apply List.map_congr_left
    intro d hd
    simp only [Function.comp_apply]
    by_cases hde : d.id = eid
    · have hdme : d = me := unique_by_id hN hmem hd (hde.trans hid.symm)
      subst hdme
      rw [moveTarget_mover hde,
        if_neg (show ¬ (d.profile_id = pid ∧ newIdx ≤ d.order_index ∧
          d.order_index < d.order_index) from fun hco => absurd hco.2.2 (lt_irrefl _)),
        if_pos hde]
    · rw [moveTarget_other_backward hde hgt]
      by_cases hc : d.profile_id = pid ∧ newIdx ≤ d.order_index ∧
          d.order_index < me.order_index
      · rw [if_pos hc,
          if_neg (show ¬ ({ d with order_index := d.order_index + 1 } : MDoc).id = eid
            from hde)]
      · rw [if_neg hc, if_neg hde]

theorem mem_ownerDocs {store : List MDoc} {pid : String} {d : MDoc} :
    d ∈ ownerDocs store pid ↔ d ∈ store ∧ d.profile_id = pid := by
  induction store with
  | nil => simp [ownerDocs]
  | cons e rest ih =>
    simp only [ownerDocs]
    by_cases h : e.profile_id = pid
    · rw [if_pos h]
      simp only [List.mem_cons, ih]
      constructor
      · rintro (rfl | ⟨hm, hp⟩)
        · exact ⟨Or.inl rfl, h⟩
        · exact ⟨Or.inr hm, hp⟩
      · rintro ⟨rfl | hm, hp⟩
        · exact Or.inl rfl
        · exact Or.inr ⟨hm, hp⟩
    · rw [if_neg h]
      simp only [List.mem_cons, ih]
      constructor
      · rintro ⟨hm, hp⟩
        exact ⟨Or.inr hm, hp⟩
      · rintro ⟨rfl | hm, hp⟩
        · exact absurd hp h
        · exact ⟨hm, hp⟩

theorem ownerDocs_map {F : MDoc → MDoc} (hF : ∀ d, (F d).profile_id = d.profile_id)
    (store : List MDoc) (pid : String) :
    ownerDocs (store.map F) pid = (ownerDocs store pid).map F := by
  induction store with
  | nil => rfl
  | cons d rest ih =>
    simp only [List.map_cons, ownerDocs]
    by_cases h : d.profile_id = pid
    · rw [if_pos (show (F d).profile_id = pid from (hF d).trans h), if_pos h,
        List.map_cons, ih]
    · rw [if_neg (show ¬ (F d).profile_id = pid from fun hc => h ((hF d).symm.trans hc)),
        if_neg h, ih]

theorem map_moveTarget_ids (store : List MDoc) (pid eid : String)
    (oldIdx newIdx : Int) :
    (store.map (moveTarget pid eid oldIdx newIdx)).map MDoc.id = store.map MDoc.id := by
  rw [List.map_map]
  apply List.map_congr_left
  intro d _
  exact moveTarget_id pid eid oldIdx newIdx d

theorem slideMap_self (oldIdx newIdx : Int) :
    slideMap oldIdx newIdx oldIdx = newIdx := by
  unfold slideMap
  rw [if_pos rfl]

theorem moveTarget_order_index_of_ne {pid eid : String} {oldIdx newIdx : Int}
    {d : MDoc} (hde : ¬ d.id = eid) (hdp : d.profile_id = pid)
    (hidx : ¬ d.order_index = oldIdx) :
    (moveTarget pid eid oldIdx newIdx d).order_index =
      slideMap oldIdx newIdx d.order_index := by
  unfold moveTarget slideMap
  rw [if_neg hde, if_neg hidx]
  by_cases h1 : oldIdx < newIdx ∧ oldIdx < d.order_index ∧ d.order_index ≤ newIdx
  · rw [if_pos (show d.profile_id = pid ∧ oldIdx < newIdx ∧ oldIdx < d.order_index ∧
      d.order_index ≤ newIdx from ⟨hdp, h1.1, h1.2.1, h1.2.2⟩), if_pos h1]
  · rw [if_neg (show ¬ (d.profile_id = pid ∧ oldIdx < newIdx ∧ oldIdx < d.order_index ∧
      d.order_index ≤ newIdx) from fun hco => h1 ⟨hco.2.1, hco.2.2.1, hco.2.2.2⟩),
      if_neg h1]
    by_cases h2 : newIdx < oldIdx ∧ newIdx ≤ d.order_index ∧ d.order_index < oldIdx
    · rw [if_pos (show d.profile_id = pid ∧ newIdx < oldIdx ∧ newIdx ≤ d.order_index ∧
        d.order_index < oldIdx from ⟨hdp, h2.1, h2.2.1, h2.2.2⟩), if_pos h2]
    · rw [if_neg (show ¬ (d.profile_id = pid ∧ newIdx < oldIdx ∧ newIdx ≤ d.order_index ∧
        d.order_index < oldIdx) from fun hco => h2 ⟨hco.2.1, hco.2.2.1, hco.2.2.2⟩),
        if_neg h2]

theorem ownerIndices_reorder {store : List MDoc} {pid eid : String} {newIdx : Int}
    {me : MDoc} (hN : (store.map MDoc.id).Nodup)
    (hI : (ownerIndices store pid).Nodup) (hmem : me ∈ store)
    (hid : me.id = eid) (hpid : me.profile_id = pid)
    (hne : me.order_index ≠ newIdx) :
    ownerIndices (reorder store pid eid newIdx) pid =
      (ownerIndices store pid).map (slideMap me.order_index newIdx) := by
  rw [reorder_eq_map hN hmem hid hne]
  unfold ownerIndices
  rw [ownerDocs_map (moveTarget_profile_id pid eid me.order_index newIdx) store pid,
    List.map_map, List.map_map]
  apply List.map_congr_left
  intro d hd
  obtain ⟨hds, hdp⟩ := mem_ownerDocs.mp hd
  simp only [Function.comp_apply]
  by_cases hde : d.id = eid
  · have hdme : d = me := unique_by_id hN hmem hds (hde.trans hid.symm)
    subst hdme
    rw [moveTarget_mover hde, slideMap_self]
  · have hidx : ¬ d.order_index = me.order_index := by
      intro h
      have hmeo : me ∈ ownerDocs store pid := mem_ownerDocs.mpr ⟨hmem, hpid⟩
      exact hde ((List.inj_on_of_nodup_map hI hd hmeo h) ▸ hid)
    exact moveTarget_order_index_of_ne hde hdp hidx

/-- Concrete collection with a single owner `"p"` holding entities at the
contiguous indices `[0, 1, 2, 3]`, used by the spec's reorder examples. -/
def demoStore : List MDoc :=
  [⟨"e0", "p", 0⟩, ⟨"e1", "p", 1⟩, ⟨"e2", "p", 2⟩, ⟨"e3", "p", 3⟩]

/-- C1: for every owner's collection and every entity currently at `oldIndex`,
`reorder(ownerId, entityId, newIndex)` decrements the owner's entities with
index in `(oldIndex, newIndex]` when moving forward, increments those with
index in `[newIndex, oldIndex)` when moving backward, moves the target to
`newIndex`, and changes nothing when `oldIndex == newIndex` (the per-document
outcome is `moveTarget`); in particular, on indices `[0,1,2,3]`, moving the
entity at index 3 to index 1 makes the sorted-by-index read return the
original items in order `[0,3,1,2]`, and moving the entity at index 0 to
index 2 returns `[1,2,0,3]`. -/
theorem reorder_shifts_spec :
    (∀ (store : List MDoc) (pid eid : String) (newIdx : Int) (me d : MDoc),
        (store.map MDoc.id).Nodup → me ∈ store → me.id = eid →
        me.profile_id = pid → d ∈ store →
        getDoc (reorder store pid eid newIdx) d.id =
          some (moveTarget pid eid me.order_index newIdx d)) ∧
    (get_all_ordered (reorder demoStore "p" "e3" 1) "p").map MDoc.id =
      ["e0", "e3", "e1", "e2"] ∧
    (get_all_ordered (reorder demoStore "p" "e0" 2) "p").map MDoc.id =
      ["e1", "e2", "e0", "e3"] := by
  refine ⟨?_, by decide, by decide⟩
  intro store pid eid newIdx me d hN hmem hid hpid hd
  by_cases heq : me.order_index = newIdx
  · rw [reorder_noop hN hmem hid heq]
    have hmt : moveTarget pid eid me.order_index newIdx d = d := by
      by_cases hde : d.id = eid
      · have hdme : d = me := unique_by_id hN hmem hd (hde.trans hid.symm)
        subst hdme
        rw [moveTarget_mover hde, ← heq]
      · unfold moveTarget
        rw [if_neg hde,
          if_neg (show ¬ (d.profile_id = pid ∧ me.order_index < newIdx ∧
            me.order_index < d.order_index ∧ d.order_index ≤ newIdx) from
            fun hco => absurd hco.2.1 (by rw [heq]; exact lt_irrefl newIdx)),
          if_neg (show ¬ (d.profile_id = pid ∧ newIdx < me.order_index ∧
            newIdx ≤ d.order_index ∧ d.order_index < me.order_index) from
            fun hco => absurd hco.2.1 (by rw [heq]; exact lt_irrefl newIdx))]
    rw [hmt]
    exact getDoc_eq_some hN hd rfl
  · rw [reorder_eq_map hN hmem hid heq]
    have hN' : ((store.map (moveTarget pid eid me.order_index newIdx)).map
        MDoc.id).Nodup := by
      rw [map_moveTarget_ids]; exact hN
    exact getDoc_eq_some hN' (List.mem_map_of_mem _ hd)
      (moveTarget_id pid eid me.order_index newIdx d)

/-- Witness for C1: concrete application on `demoStore`, moving `"e2"` (at
index 2) to index 0; the sibling `"e1"` is shifted from index 1 up to 2. -/
theorem reorder_shifts_spec_witness :
    ((demoStore.map MDoc.id).Nodup ∧ (⟨"e2", "p", 2⟩ : MDoc) ∈ demoStore ∧
      (⟨"e1", "p", 1⟩ : MDoc) ∈ demoStore) ∧
    getDoc (reorder demoStore "p" "e2" 0) "e1" =
      some (moveTarget "p" "e2" 2 0 ⟨"e1", "p", 1⟩) :=
  ⟨⟨by decide, by decide, by decide⟩,
    reorder_shifts_spec.1 demoStore "p" "e2" 0 ⟨"e2", "p", 2⟩ ⟨"e1", "p", 1⟩
      (by decide) (by decide) rfl rfl (by decide)⟩

/-- C2: for every owner's collection with pairwise-distinct `order_index`
values (gaps allowed) and every entity of that owner, after
`reorder(ownerId, entityId, newIndex)` the owner's `order_index` values are
still pairwise distinct and exactly one entity of the owner sits at
`newIndex`, for every integer `newIndex`. -/
theorem reorder_unique_index_invariant
    (store : List MDoc) (pid eid : String) (newIdx : Int) (me : MDoc)
    (hN : (store.map MDoc.id).Nodup)
    (hI : (ownerIndices store pid).Nodup)
    (hmem : me ∈ store) (hid : me.id = eid) (hpid : me.profile_id = pid) :
    (ownerIndices (reorder store pid eid newIdx) pid).Nodup ∧
    (ownerIndices (reorder store pid eid newIdx) pid).count newIdx = 1 := by
  have hmeo : me ∈ ownerDocs store pid := mem_ownerDocs.mpr ⟨hmem, hpid⟩
  have hoidx : me.order_index ∈ ownerIndices store pid :=
    List.mem_map_of_mem MDoc.order_index hmeo
  by_cases heq : me.order_index = newIdx
  · rw [reorder_noop hN hmem hid heq]
    exact ⟨hI, heq ▸ List.count_eq_one_of_mem hI hoidx⟩
  · rw [ownerIndices_reorder hN hI hmem hid hpid heq]
    constructor
    · exact hI.map (slideMap_injective me.order_index newIdx)
    · have hcnt := List.count_map_of_injective (ownerIndices store pid)
        (slideMap me.order_index newIdx)
        (slideMap_injective me.order_index newIdx) me.order_index
      rw [slideMap_self] at hcnt
      rw [hcnt]
      exact List.count_eq_one_of_mem hI hoidx

/-- Witness for C2: moving `"e0"` to index 2 on a store whose owner `"p"` has
indices `[0, 1, 2, 3]` keeps the indices distinct with exactly one entity at
index 2. -/
theorem reorder_unique_index_invariant_witness :
    ((demoStore.map MDoc.id).Nodup ∧ (ownerIndices demoStore "p").Nodup ∧
      (⟨"e0", "p", 0⟩ : MDoc) ∈ demoStore) ∧
    ((ownerIndices (reorder demoStore "p" "e0" 2) "p").Nodup ∧
      (ownerIndices (reorder demoStore "p" "e0" 2) "p").count 2 = 1) :=
  ⟨⟨by decide, by decide, by decide⟩,
    reorder_unique_index_invariant demoStore "p" "e0" 2 ⟨"e0", "p", 0⟩
      (by decide) (by decide) (by decide) rfl rfl⟩

/-- C10: calling `reorder` with an `entityId` that matches no stored document
returns normally (the repository method just returns after `get_by_id` yields
`None`) and leaves every stored document of every owner unchanged. -/
theorem reorder_missing_entity_noop (store : List MDoc) (pid eid : String)
    (newIdx : Int) (h : ∀ d ∈ store, d.id ≠ eid) :
    reorder store pid eid newIdx = store := by
  unfold reorder
  rw [getDoc_eq_none h]

/-- Witness for C10: reordering an id absent from `demoStore` leaves the
store exactly as it was. -/
theorem reorder_missing_entity_noop_witness :
    (∀ d ∈ demoStore, d.id ≠ "missing") ∧
    reorder demoStore "p" "missing" 5 = demoStore :=
  ⟨by decide, reorder_missing_entity_noop demoStore "p" "missing" 5 (by decide)⟩

/-- Blank test modelling the Python idiom `not s or not s.strip()` (and the
normalizing variant `s.strip() == ""`): true exactly on empty or
whitespace-only strings. -/
def isBlank (s : String) : Bool := s.data.all Char.isWhitespace

/-- Domain exceptions of `app/domain/exceptions`, with the payloads the
entity validators attach (`InvalidLengthError` carries optional
`min_length` / `max_length`). -/
inductive DomainErr where
  | emptyField (f : String)
  | invalidLength (f : String) (minLen maxLen : Option Nat)
  | invalidDateRange (startDate endDate : Int)
  | invalidURL (url : String)
  | invalidTitle (msg : String)
  | invalidDescription (msg : String)
  | invalidOrderIndex (idx : Int)
  | invalidRole (msg : String)
  | invalidCompany (msg : String)
  | invalidInstitution (msg : String)
  | invalidIssuer (msg : String)
  | invalidName (msg : String)
  | invalidEmail (email : String)
  | duplicate (entity f value : String)
  deriving DecidableEq

/-- Shared `_validate_profile_id`: every portfolio entity rejects a blank
`profile_id` with `EmptyFieldError("profile_id")`. -/
def validate_profile_id (profile_id : String) : Except DomainErr Unit :=
  if isBlank profile_id then .error (.emptyField "profile_id") else .ok ()

/-- Shared `_validate_dates` of WorkExperience, Education, Project (on
`end_date`/`start_date`) and Certification (on `expiry_date`/`issue_date`):
all four bodies are literally `if end is not None and end <= start: raise
InvalidDateRangeError(start, end)`. -/
def validateDates (startDate : Int) (endDate : Option Int) : Except DomainErr Unit :=
  match endDate with
  | none => .ok ()
  | some e => if e ≤ startDate then .error (.invalidDateRange startDate e) else .ok ()

/-- Shared shape of the normalizing optional-URL validators
(`Project._validate_urls` per field, `Profile._validate_avatar_url`,
`Certification._validate_credential_url`): a blank value is silently
replaced by `None`, a non-blank value must match the URL regex. The regex
`URL_PATTERN` itself is kept abstract as the parameter `urlOk`. -/
def validateOptUrl (urlOk : String → Bool) (u : Option String) :
    Except DomainErr (Option String) :=
  match u with
  | none => .ok none
  | some s =>
    if isBlank s then .ok none
    else if urlOk s then .ok (some s)
    else .error (.invalidURL s)

/-- Value-level normalization performed by the blank-to-absent validators. -/
def normalizeOpt (u : Option String) : Option String :=
  match u with
  | none => none
  | some s => if isBlank s then none else some s

theorem validateOptUrl_ok {urlOk : String → Bool} {u : Option String}
    (h : ∀ s, u = some s → isBlank s = true ∨ urlOk s = true) :
    validateOptUrl urlOk u = .ok (normalizeOpt u) := by
  match u with
  | none => rfl
  | some s =>
    unfold validateOptUrl normalizeOpt
    by_cases hb : isBlank s = true
    · simp [hb]
    · rcases h s rfl with hb' | hok
      · exact absurd hb' hb
      · simp [hb, hok]

/-- Python truthiness of an optional string (`None` and `""` are falsy). -/
def truthyStr : Option String → Bool
  | none => false
  | some s => !(s == "")

/-- Project entity state (`app/domain/entities/project.py`), with URL fields
as stored after the normalizing validators ran. -/
structure Project where
  id : String
  profile_id : String
  title : String
  description : String
  start_date : Int
  order_index : Int
  end_date : Option Int
  live_url : Option String
  repo_url : Option String
  technologies : List String
  created_at : Int
  updated_at : Int
  deriving DecidableEq

namespace Project

def MAX_TITLE_LENGTH : Nat := 100
def MIN_DESCRIPTION_LENGTH : Nat := 10
def MAX_DESCRIPTION_LENGTH : Nat := 2000
def MIN_DESCRIPTION_WITHOUT_URLS : Nat := 100
def MAX_TECHNOLOGIES : Nat := 20
def MAX_TECHNOLOGY_LENGTH : Nat := 50

def validateTitle (title : String) : Except DomainErr Unit :=
  if isBlank title then .error (.invalidTitle "Title cannot be empty")
  else if title.length > MAX_TITLE_LENGTH then
    .error (.invalidLength "title" none (some MAX_TITLE_LENGTH))
  else .ok ()

def validateDescription (description : String) : Except DomainErr Unit :=
  if isBlank description then .error (.invalidDescription "Description cannot be empty")
  else if description.length < MIN_DESCRIPTION_LENGTH then
    .error (.invalidLength "description" (some MIN_DESCRIPTION_LENGTH) none)
  else if description.length > MAX_DESCRIPTION_LENGTH then
    .error (.invalidLength "description" none (some MAX_DESCRIPTION_LENGTH))
  else .ok ()

/-- Model of `Project.has_urls`: `bool(self.live_url or self.repo_url)`. -/
def has_urls (live repo : Option String) : Bool := truthyStr live || truthyStr repo

/-- The message of `_validate_description_sufficiency` (business rule RB-PR09). -/
def suffMsg : String :=
  "Description must be at least 100 characters when no URLs are provided"

def validateSufficiency (description : String) (live repo : Option String) :
    Except DomainErr Unit :=
  if !(has_urls live repo) && decide (description.length < MIN_DESCRIPTION_WITHOUT_URLS) then
    .error (.invalidDescription suffMsg)
  else .ok ()

def validateTechList : List String → Except DomainErr Unit
  | [] => .ok ()
  | t :: rest =>
    if isBlank t then .error (.emptyField "technology item")
    else if t.length > MAX_TECHNOLOGY_LENGTH then
      .error (.invalidLength "technology item" none (some MAX_TECHNOLOGY_LENGTH))
    else validateTechList rest

def validateTechnologies (technologies : List String) : Except DomainErr Unit :=
  if technologies.length > MAX_TECHNOLOGIES then
    .error (.invalidLength "technologies" none (some MAX_TECHNOLOGIES))
  else validateTechList technologies

def validateOrderIndex (order_index : Int) : Except DomainErr Unit :=
  if order_index < 0 then .error (.invalidOrderIndex order_index) else .ok ()

/-- Model of the `Project` dataclass constructor together with
`__post_init__`: the eight validators run in the source order
(profile_id, title, description, dates, urls, technologies, order_index,
description sufficiency). -/
def init (urlOk : String → Bool) (id profile_id title description : String)
    (start_date : Int) (order_index : Int) (end_date : Option Int)
    (live_url repo_url : Option String) (technologies : List String)
    (created_at updated_at : Int) : Except DomainErr Project := do
  validate_profile_id profile_id
  validateTitle title
  validateDescription description
  validateDates start_date end_date
  let live ← validateOptUrl urlOk live_url
  let repo ← validateOptUrl urlOk repo_url
  validateTechnologies technologies
  validateOrderIndex order_index
  validateSufficiency description live repo
  .ok ⟨id, profile_id, title, description, start_date, order_index, end_date,
    live, repo, technologies, created_at, updated_at⟩

/-- Model of `Project.create` (the generated UUID and the two `utcnow`
timestamps are passed in as `newId` / `now`; `technologies or []` maps an
omitted list to `[]`). -/
def create (urlOk : String → Bool) (newId : String) (now : Int)
    (profile_id title description : String) (start_date : Int)
    (order_index : Int) (end_date : Option Int)
    (live_url repo_url : Option String) (technologies : Option (List String)) :
    Except DomainErr Project :=
  init urlOk newId profile_id title description start_date order_index end_date
    live_url repo_url (technologies.getD []) now now

/-- Model of `Project.update_info`: each supplied field is assigned then
field-validated, dates are merged, and `_validate_dates` plus
`_validate_description_sufficiency` run on the final state. -/
def update_info (p : Project) (now : Int) (title? description? : Option String)
    (start_date? end_date? : Option Int) : Except DomainErr Project := do
  let p ← match title? with
    | none => pure p
    | some t => do validateTitle t; pure { p with title := t }
  let p ← match description? with
    | none => pure p
    | some dsc => do validateDescription dsc; pure { p with description := dsc }
  let p := match start_date? with
    | none => p
    | some sd => { p with start_date := sd }
  let p := match end_date? with
    | none => p
    | some ed => { p with end_date := some ed }
  validateDates p.start_date p.end_date
  validateSufficiency p.description p.live_url p.repo_url
  .ok { p with updated_at := now }

/-- Model of `Project.update_urls`: supplied URL arguments are assigned,
`_validate_urls` (which re-normalizes and re-checks both stored fields) runs,
then the sufficiency rule is re-evaluated. -/
def update_urls (urlOk : String → Bool) (p : Project) (now : Int)
    (live? repo? : Option String) : Except DomainErr Project := do
  let live ← validateOptUrl urlOk (match live? with | none => p.live_url | some s => some s)
  let repo ← validateOptUrl urlOk (match repo? with | none => p.repo_url | some s => some s)
  validateSufficiency p.description live repo
  .ok { p with live_url := live, repo_url := repo, updated_at := now }

end Project

/-- Normalizing optional-description validator shared in shape by
`WorkExperience._validate_description` (max 2000) and
`Education._validate_description` (max 1000): blank becomes `None`, longer
than the bound raises `InvalidLengthError("description", max_length=bound)`. -/
def validateOptDescription (maxLen : Nat) (d : Option String) :
    Except DomainErr (Option String) :=
  match d with
  | none => .ok none
  | some s =>
    if isBlank s then .ok none
    else if s.length > maxLen then
      .error (.invalidLength "description" none (some maxLen))
    else .ok (some s)

/-- WorkExperience entity state (`app/domain/entities/work_experience.py`). -/
structure WorkExperience where
  id : String
  profile_id : String
  role : String
  company : String
  start_date : Int
  order_index : Int
  description : Option String
  end_date : Option Int
  responsibilities : List String
  created_at : Int
  updated_at : Int
  deriving DecidableEq

namespace WorkExperience

def MAX_ROLE_LENGTH : Nat := 100
def MAX_COMPANY_LENGTH : Nat := 100
def MAX_DESCRIPTION_LENGTH : Nat := 2000
def MAX_RESPONSIBILITIES : Nat := 20
def MAX_RESPONSIBILITY_LENGTH : Nat := 500

def validateRole (role : String) : Except DomainErr Unit :=
  if isBlank role then .error (.invalidRole "Role cannot be empty")
  else if role.length > MAX_ROLE_LENGTH then
    .error (.invalidLength "role" none (some MAX_ROLE_LENGTH))
  else .ok ()

def validateCompany (company : String) : Except DomainErr Unit :=
  if isBlank company then .error (.invalidCompany "Company name cannot be empty")
  else if company.length > MAX_COMPANY_LENGTH then
    .error (.invalidLength "company" none (some MAX_COMPANY_LENGTH))
  else .ok ()

def validateRespList : List String → Except DomainErr Unit
  | [] => .ok ()
  | r :: rest =>
    if isBlank r then .error (.emptyField "responsibility item")
    else if r.length > MAX_RESPONSIBILITY_LENGTH then
      .error (.invalidLength "responsibility item" none (some MAX_RESPONSIBILITY_LENGTH))
    else validateRespList rest

def validateResponsibilities (responsibilities : List String) : Except DomainErr Unit :=
  if responsibilities.length > MAX_RESPONSIBILITIES then
    .error (.invalidLength "responsibilities" none (some MAX_RESPONSIBILITIES))
  else validateRespList responsibilities

def validateOrderIndex (order_index : Int) : Except DomainErr Unit :=
  if order_index < 0 then .error (.invalidOrderIndex order_index) else .ok ()

/-- Model of the `WorkExperience` constructor with `__post_init__`
(profile_id, role, company, description, dates, responsibilities,
order_index, in source order). -/
def init (id profile_id role company : String) (start_date : Int)
    (order_index : Int) (description : Option String) (end_date : Option Int)
    (responsibilities : List String) (created_at updated_at : Int) :
    Except DomainErr WorkExperience := do
  validate_profile_id profile_id
  validateRole role
  validateCompany company
  let desc ← validateOptDescription MAX_DESCRIPTION_LENGTH description
  validateDates start_date end_date
  validateResponsibilities responsibilities
  validateOrderIndex order_index
  .ok ⟨id, profile_id, role, company, start_date, order_index, desc, end_date,
    responsibilities, created_at, updated_at⟩

/-- Model of `WorkExperience.create` (`responsibilities or []`). -/
def create (newId : String) (now : Int) (profile_id role company : String)
    (start_date : Int) (order_index : Int) (description : Option String)
    (end_date : Option Int) (responsibilities : Option (List String)) :
    Except DomainErr WorkExperience :=
  init newId profile_id role company start_date order_index description
    end_date (responsibilities.getD []) now now

/-- Model of `WorkExperience.update_info`: supplied fields are assigned and
field-validated in source order, then `_validate_dates` runs on the merged
state. -/
def update_info (w : WorkExperience) (now : Int)
    (role? company? description? : Option String)
    (start_date? end_date? : Option Int) : Except DomainErr WorkExperience := do
  let w ← match role? with
    | none => pure w
    | some r => do validateRole r; pure { w with role := r }
  let w ← match company? with
    | none => pure w
    | some c => do validateCompany c; pure { w with company := c }
  let w ← match description? with
    | none => pure w
    | some dsc => do
        let nd ← validateOptDescription MAX_DESCRIPTION_LENGTH (some dsc)
        pure { w with description := nd }
  let w := match start_date? with
    | none => w
    | some sd => { w with start_date := sd }
  let w := match end_date? with
    | none => w
    | some ed => { w with end_date := some ed }
  validateDates w.start_date w.end_date
  .ok { w with updated_at := now }

end WorkExperience

/-- Education entity state (`app/domain/entities/education.py`); the field of
study is called `field` in the source. -/
structure Education where
  id : String
  profile_id : String
  institution : String
  degree : String
  field : String
  start_date : Int
  order_index : Int
  description : Option String
  end_date : Option Int
  created_at : Int
  updated_at : Int
  deriving DecidableEq

namespace Education

def MAX_INSTITUTION_LENGTH : Nat := 100
def MAX_DEGREE_LENGTH : Nat := 100
def MAX_FIELD_LENGTH : Nat := 100
def MAX_DESCRIPTION_LENGTH : Nat := 1000

def validateInstitution (institution : String) : Except DomainErr Unit :=
  if isBlank institution then
    .error (.invalidInstitution "Institution cannot be empty")
  else if institution.length > MAX_INSTITUTION_LENGTH then
    .error (.invalidLength "institution" none (some MAX_INSTITUTION_LENGTH))
  else .ok ()

def validateDegree (degree : String) : Except DomainErr Unit :=
  if isBlank degree then .error (.emptyField "degree")
  else if degree.length > MAX_DEGREE_LENGTH then
    .error (.invalidLength "degree" none (some MAX_DEGREE_LENGTH))
  else .ok ()

def validateField (fieldOfStudy : String) : Except DomainErr Unit :=
  if isBlank fieldOfStudy then .error (.emptyField "field")
  else if fieldOfStudy.length > MAX_FIELD_LENGTH then
    .error (.invalidLength "field" none (some MAX_FIELD_LENGTH))
  else .ok ()

def validateOrderIndex (order_index : Int) : Except DomainErr Unit :=
  if order_index < 0 then .error (.invalidOrderIndex order_index) else .ok ()

/-- Model of the `Education` constructor with `__post_init__` (profile_id,
institution, degree, field, description, dates, order_index). -/
def init (id profile_id institution degree fieldOfStudy : String)
    (start_date : Int) (order_index : Int) (description : Option String)
    (end_date : Option Int) (created_at updated_at : Int) :
    Except DomainErr Education := do
  validate_profile_id profile_id
  validateInstitution institution
  validateDegree degree
  validateField fieldOfStudy
  let desc ← validateOptDescription MAX_DESCRIPTION_LENGTH description
  validateDates start_date end_date
  validateOrderIndex order_index
  .ok ⟨id, profile_id, institution, degree, fieldOfStudy, start_date,
    order_index, desc, end_date, created_at, updated_at⟩

/-- Model of `Education.create`. -/
def create (newId : String) (now : Int)
    (profile_id institution degree fieldOfStudy : String) (start_date : Int)
    (order_index : Int) (description : Option String) (end_date : Option Int) :
    Except DomainErr Education :=
  init newId profile_id institution degree fieldOfStudy start_date order_index
    description end_date now now

/-- Model of `Education.update_info`: supplied fields assigned and
field-validated in source order, then `_validate_dates` on the merged state. -/
def update_info (e : Education) (now : Int)
    (institution? degree? field? description? : Option String)
    (start_date? end_date? : Option Int) : Except DomainErr Education := do
  let e ← match institution? with
    | none => pure e
    | some v => do validateInstitution v; pure { e with institution := v }
  let e ← match degree? with
    | none => pure e
    | some v => do validateDegree v; pure { e with degree := v }
  let e ← match field? with
    | none => pure e
    | some v => do validateField v; pure { e with field := v }
  let e ← match description? with
    | none => pure e
    | some dsc => do
        let nd ← validateOptDescription MAX_DESCRIPTION_LENGTH (some dsc)
        pure { e with description := nd }
  let e := match start_date? with
    | none => e
    | some sd => { e with start_date := sd }
  let e := match end_date? with
    | none => e
    | some ed => { e with end_date := some ed }
  validateDates e.start_date e.end_date
  .ok { e with updated_at := now }

end Education

/-- Certification entity state (`app/domain/entities/certification.py`). -/
structure Certification where
  id : String
  profile_id : String
  title : String
  issuer : String
  issue_date : Int
  order_index : Int
  expiry_date : Option Int
  credential_id : Option String
  credential_url : Option String
  created_at : Int
  updated_at : Int
  deriving DecidableEq

namespace Certification

def MAX_TITLE_LENGTH : Nat := 100
def MAX_ISSUER_LENGTH : Nat := 100
def MAX_CREDENTIAL_ID_LENGTH : Nat := 100

def validateTitle (title : String) : Except DomainErr Unit :=
  if isBlank title then .error (.invalidTitle "Title cannot be empty")
  else if title.length > MAX_TITLE_LENGTH then
    .error (.invalidLength "title" none (some MAX_TITLE_LENGTH))
  else .ok ()

def validateIssuer (issuer : String) : Except DomainErr Unit :=
  if isBlank issuer then .error (.invalidIssuer "Issuer cannot be empty")
  else if issuer.length > MAX_ISSUER_LENGTH then
    .error (.invalidLength "issuer" none (some MAX_ISSUER_LENGTH))
  else .ok ()

/-- Normalizing `_validate_credential_id`: blank becomes `None`, otherwise at
most 100 characters. -/
def validateCredentialId (c : Option String) : Except DomainErr (Option String) :=
  match c with
  | none => .ok none
  | some s =>
    if isBlank s then .ok none
    else if s.length > MAX_CREDENTIAL_ID_LENGTH then
      .error (.invalidLength "credential_id" none (some MAX_CREDENTIAL_ID_LENGTH))
    else .ok (some s)

def validateOrderIndex (order_index : Int) : Except DomainErr Unit :=
  if order_index < 0 then .error (.invalidOrderIndex order_index) else .ok ()

/-- Model of the `Certification` constructor with `__post_init__` (profile_id,
title, issuer, dates, credential_id, credential_url, order_index). -/
def init (urlOk : String → Bool) (id profile_id title issuer : String)
    (issue_date : Int) (order_index : Int) (expiry_date : Option Int)
    (credential_id credential_url : Option String) (created_at updated_at : Int) :
    Except DomainErr Certification := do
  validate_profile_id profile_id
  validateTitle title
  validateIssuer issuer
  validateDates issue_date expiry_date
  let cid ← validateCredentialId credential_id
  let curl ← validateOptUrl urlOk credential_url
  validateOrderIndex order_index
  .ok ⟨id, profile_id, title, issuer, issue_date, order_index, expiry_date,
    cid, curl, created_at, updated_at⟩

/-- Model of `Certification.create`. -/
def create (urlOk : String → Bool) (newId : String) (now : Int)
    (profile_id title issuer : String) (issue_date : Int) (order_index : Int)
    (expiry_date : Option Int) (credential_id credential_url : Option String) :
    Except DomainErr Certification :=
  init urlOk newId profile_id title issuer issue_date order_index expiry_date
    credential_id credential_url now now

/-- Model of `Certification.update_info`: supplied fields assigned and
field-validated in source order, then `_validate_dates` on the merged state. -/
def update_info (urlOk : String → Bool) (c : Certification) (now : Int)
    (title? issuer? : Option String) (issue_date? expiry_date? : Option Int)
    (credential_id? credential_url? : Option String) :
    Except DomainErr Certification := do
  let c ← match title? with
    | none => pure c
    | some v => do validateTitle v; pure { c with title := v }
  let c ← match issuer? with
    | none => pure c
    | some v => do validateIssuer v; pure { c with issuer := v }
  let c := match issue_date? with
    | none => c
    | some v => { c with issue_date := v }
  let c := match expiry_date? with
    | none => c
    | some v => { c with expiry_date := some v }
  let c ← match credential_id? with
    | none => pure c
    | some v => do
        let nc ← validateCredentialId (some v)
        pure { c with credential_id := nc }
  let c ← match credential_url? with
    | none => pure c
    | some v => do
        let nu ← validateOptUrl urlOk (some v)
        pure { c with credential_url := nu }
  validateDates c.issue_date c.expiry_date
  .ok { c with updated_at := now }

end Certification

/-- Profile entity state (`app/domain/entities/profile.py`). -/
structure Profile where
  id : String
  name : String
  headline : String
  bio : Option String
  location : Option String
  avatar_url : Option String
  created_at : Int
  updated_at : Int
  deriving DecidableEq

namespace Profile

def MAX_NAME_LENGTH : Nat := 100
def MAX_HEADLINE_LENGTH : Nat := 100
def MAX_BIO_LENGTH : Nat := 1000
def MAX_LOCATION_LENGTH : Nat := 100

def validateName (name : String) : Except DomainErr Unit :=
  if isBlank name then .error (.emptyField "name")
  else if name.length > MAX_NAME_LENGTH then
    .error (.invalidLength "name" none (some MAX_NAME_LENGTH))
  else .ok ()

def validateHeadline (headline : String) : Except DomainErr Unit :=
  if isBlank headline then .error (.emptyField "headline")
  else if headline.length > MAX_HEADLINE_LENGTH then
    .error (.invalidLength "headline" none (some MAX_HEADLINE_LENGTH))
  else .ok ()

/-- Normalizing `_validate_bio`: an empty/whitespace-only bio becomes `None`. -/
def validateBio (b : Option String) : Except DomainErr (Option String) :=
  match b with
  | none => .ok none
  | some s =>
    if isBlank s then .ok none
    else if s.length > MAX_BIO_LENGTH then
      .error (.invalidLength "bio" none (some MAX_BIO_LENGTH))
    else .ok (some s)

/-- Normalizing `_validate_location`. -/
def validateLocation (l : Option String) : Except DomainErr (Option String) :=
  match l with
  | none => .ok none
  | some s =>
    if isBlank s then .ok none
    else if s.length > MAX_LOCATION_LENGTH then
      .error (.invalidLength "location" none (some MAX_LOCATION_LENGTH))
    else .ok (some s)

/-- Model of the `Profile` constructor with `__post_init__` (name, headline,
bio, location, avatar URL, in source order). -/
def init (urlOk : String → Bool) (id name headline : String)
    (bio location avatar_url : Option String) (created_at updated_at : Int) :
    Except DomainErr Profile := do
  validateName name
  validateHeadline headline
  let b ← validateBio bio
  let l ← validateLocation location
  let av ← validateOptUrl urlOk avatar_url
  .ok ⟨id, name, headline, b, l, av, created_at, updated_at⟩

/-- Model of `Profile.create`. -/
def create (urlOk : String → Bool) (newId : String) (now : Int)
    (name headline : String) (bio location avatar_url : Option String) :
    Except DomainErr Profile :=
  init urlOk newId name headline bio location avatar_url now now

/-- Model of `Profile.update_basic_info`: each supplied field is assigned and
then its validator runs (normalizing the optional ones). -/
def update_basic_info (p : Profile) (now : Int)
    (name? headline? bio? location? : Option String) : Except DomainErr Profile := do
  let p ← match name? with
    | none => pure p
    | some v => do validateName v; pure { p with name := v }
  let p ← match headline? with
    | none => pure p
    | some v => do validateHeadline v; pure { p with headline := v }
  let p ← match bio? with
    | none => pure p
    | some v => do
        let nb ← validateBio (some v)
        pure { p with bio := nb }
  let p ← match location? with
    | none => pure p
    | some v => do
        let nl ← validateLocation (some v)
        pure { p with location := nl }
  .ok { p with updated_at := now }

/-- Model of `Profile.update_avatar` (a `None` argument removes the avatar;
the stored value is then re-validated and normalized). -/
def update_avatar (urlOk : String → Bool) (p : Profile) (now : Int)
    (avatar_url : Option String) : Except DomainErr Profile := do
  let av ← validateOptUrl urlOk avatar_url
  .ok { p with avatar_url := av, updated_at := now }

end Profile

/-- The three statuses of `VALID_MESSAGE_STATUSES` in
`app/domain/entities/contact_message.py`. -/
inductive MessageStatus where
  | pending
  | read
  | replied
  deriving DecidableEq

/-- Position of a status along the `pending → read → replied` lifecycle. -/
def MessageStatus.rank : MessageStatus → Nat
  | .pending => 0
  | .read => 1
  | .replied => 2

/-- ContactMessage entity state (`app/domain/entities/contact_message.py`). -/
structure ContactMessage where
  id : String
  name : String
  email : String
  message : String
  created_at : Int
  status : MessageStatus
  read_at : Option Int
  replied_at : Option Int
  deriving DecidableEq

namespace ContactMessage

/-- Model of `mark_as_read` (`datetime.utcnow()` is passed in as `now`): only
a pending message transitions to read. -/
def mark_as_read (m : ContactMessage) (now : Int) : ContactMessage :=
  if m.status = .pending then
    { m with status := MessageStatus.read, read_at := some now }
  else m

/-- Model of `mark_as_replied`: a pending or read message transitions to
replied, `replied_at` is set to `now`, and `read_at` is backfilled with the
same timestamp when it was unset. -/
def mark_as_replied (m : ContactMessage) (now : Int) : ContactMessage :=
  if m.status = .pending ∨ m.status = .read then
    { m with
      status := MessageStatus.replied
      replied_at := some now
      read_at := if m.read_at = none then some now else m.read_at }
  else m

def is_pending (m : ContactMessage) : Bool := m.status = .pending

def is_read (m : ContactMessage) : Bool := m.status = .read ∨ m.status = .replied

def is_replied (m : ContactMessage) : Bool := m.status = .replied

end ContactMessage

/-- One call in a sequence of status transitions on a contact message. -/
inductive MsgOp where
  | markRead (t : Int)
  | markReplied (t : Int)
  deriving DecidableEq

/-- Apply a sequence of `mark_as_read` / `mark_as_replied` calls in order. -/
def applyMsgOps (m : ContactMessage) : List MsgOp → ContactMessage
  | [] => m
  | op :: rest =>
    applyMsgOps
      (match op with
        | .markRead t => m.mark_as_read t
        | .markReplied t => m.mark_as_replied t)
      rest

/-- Persistence document of the `projects` collection as
`ProjectMapper.to_persistence` writes it; an `Option` field with value
`none` models an absent key. -/
structure ProjectDoc where
  _id : String
  profile_id : String
  title : String
  description : String
  start_date : Int
  order_index : Int
  end_date : Option Int
  live_url : Option String
  repo_url : Option String
  technologies : Option (List String)
  created_at : Int
  updated_at : Int
  deriving DecidableEq

namespace ProjectMapper

/-- Model of `ProjectMapper.to_domain`: required keys are read directly,
optional keys via `.get(...)`, `technologies` via `.get("technologies", [])`;
the `Project` constructor then validates (and can normalize URL fields). -/
def to_domain (urlOk : String → Bool) (doc : ProjectDoc) :
    Except DomainErr Project :=
  Project.init urlOk doc._id doc.profile_id doc.title doc.description
    doc.start_date doc.order_index doc.end_date doc.live_url doc.repo_url
    (doc.technologies.getD []) doc.created_at doc.updated_at

/-- Model of `ProjectMapper.to_persistence`: `end_date`, `live_url` and
`repo_url` are written only when present, while `technologies` is always
written. -/
def to_persistence (p : Project) : ProjectDoc :=
  { _id := p.id, profile_id := p.profile_id, title := p.title,
    description := p.description, start_date := p.start_date,
    order_index := p.order_index, end_date := p.end_date,
    live_url := p.live_url, repo_url := p.repo_url,
    technologies := some p.technologies, created_at := p.created_at,
    updated_at := p.updated_at }

end ProjectMapper

/-- Stored document of the `skills` collection, with the fields the add-skill
flow reads (`profile_id` and `name` drive the uniqueness check). -/
structure SkillDoc where
  id : String
  profile_id : String
  name : String
  category : String
  order_index : Int
  level : Option String
  deriving DecidableEq

/-- The valid skill levels named by the specification. -/
def VALID_SKILL_LEVELS : List String := ["basic", "intermediate", "advanced", "expert"]

/-- Modelled from the spec: the entity file `app/domain/entities/skill.py` is
missing from the sources (only its import and its callers are present).
Per the spec's data-model table, a Skill requires `name`, `category` and
`order_index`, and `level`, when given, must lie in
`{basic, intermediate, advanced, expert}`. -/
def skillCreate (newId profile_id name category : String)
    (order_index : Int) (level : Option String) : Except DomainErr SkillDoc := do
  validate_profile_id profile_id
  if isBlank name then throw (.emptyField "name")
  else if isBlank category then throw (.emptyField "category")
  else if order_index < 0 then throw (.invalidOrderIndex order_index)
  else
    match level with
    | none => .ok ⟨newId, profile_id, name, category, order_index, none⟩
    | some lv =>
      if VALID_SKILL_LEVELS.contains lv then
        .ok ⟨newId, profile_id, name, category, order_index, some lv⟩
      else throw (.emptyField "level")

/-- Model of `SkillRepository.exists_by_name`: `count_documents({"profile_id":
profile_id, "name": name}) > 0`. -/
def exists_by_name (store : List SkillDoc) (profile_id name : String) : Bool :=
  store.any fun d => d.profile_id == profile_id && d.name == name

/-- Request payload of `AddSkillUseCase.execute`. -/
structure AddSkillRequest where
  profile_id : String
  name : String
  category : String
  order_index : Int
  level : Option String
  deriving DecidableEq

/-- Model of `AddSkillUseCase.execute`: check name uniqueness first (raising
`DuplicateException("Skill", "name", name)` on a hit), then create the
domain entity, then persist it with `add` (an insert). Returns the outcome
together with the resulting stored collection, which is unchanged on any
failure since the exception is raised before the insert. -/
def addSkillExecute (store : List SkillDoc) (newId : String)
    (req : AddSkillRequest) : Except DomainErr SkillDoc × List SkillDoc :=
  if exists_by_name store req.profile_id req.name then
    (.error (.duplicate "Skill" "name" req.name), store)
  else
    match skillCreate newId req.profile_id req.name req.category
        req.order_index req.level with
    | .error e => (.error e, store)
    | .ok skill => (.ok skill, store ++ [skill])

theorem mark_as_read_rank (m : ContactMessage) (t : Int) :
    m.status.rank ≤ (m.mark_as_read t).status.rank := by
  unfold ContactMessage.mark_as_read
  by_cases h : m.status = MessageStatus.pending
  · simp [h, MessageStatus.rank]
  · simp [h]

theorem mark_as_replied_of_replied {m : ContactMessage} (t : Int)
    (h : m.status = MessageStatus.replied) : m.mark_as_replied t = m := by
  unfold ContactMessage.mark_as_replied
  rw [if_neg (by simp [h])]

theorem mark_as_replied_rank (m : ContactMessage) (t : Int) :
    m.status.rank ≤ (m.mark_as_replied t).status.rank := by
  unfold ContactMessage.mark_as_replied
  by_cases h : m.status = MessageStatus.pending ∨ m.status = MessageStatus.read
  · rw [if_pos h]
    rcases h with h | h <;> simp [h, MessageStatus.rank]
  · rw [if_neg h]

/-- C5: the contact-message status only advances along pending → read →
replied under any sequence of `mark_as_read` / `mark_as_replied` calls;
transitions whose target is already reached or passed are no-ops (a second
`mark_as_replied` leaves `replied_at` unchanged); `mark_as_replied` on a
message with unset `read_at` backfills `read_at` with the same timestamp as
`replied_at`; and `mark_as_read` followed by `mark_as_replied` keeps
`read_at` at the value the read transition set. -/
theorem contact_message_lifecycle :
    (∀ (m : ContactMessage) (ops : List MsgOp),
        m.status.rank ≤ (applyMsgOps m ops).status.rank) ∧
    (∀ (m : ContactMessage) (t : Int), m.status ≠ MessageStatus.pending →
        m.mark_as_read t = m) ∧
    (∀ (m : ContactMessage) (t : Int), m.status = MessageStatus.replied →
        m.mark_as_replied t = m) ∧
    (∀ (m : ContactMessage) (t1 t2 : Int),
        ((m.mark_as_replied t1).mark_as_replied t2).replied_at =
          (m.mark_as_replied t1).replied_at) ∧
    (∀ (m : ContactMessage) (t : Int), m.status ≠ MessageStatus.replied →
        m.read_at = none →
        (m.mark_as_replied t).read_at = some t ∧
          (m.mark_as_replied t).replied_at = some t) ∧
    (∀ (m : ContactMessage) (t1 t2 : Int), m.status = MessageStatus.pending →
        (m.mark_as_read t1).read_at = some t1 ∧
          ((m.mark_as_read t1).mark_as_replied t2).read_at = some t1) := by
  refine ⟨?_, ?_, ?_, ?_, ?_, ?_⟩
  · intro m ops
    induction ops generalizing m with
    | nil => exact Nat.le_refl _
    | cons op rest ih =>
      cases op with
      | markRead t =>
        exact Nat.le_trans (mark_as_read_rank m t) (ih (m.mark_as_read t))
      | markReplied t =>
        exact Nat.le_trans (mark_as_replied_rank m t) (ih (m.mark_as_replied t))
  · intro m t h
    unfold ContactMessage.mark_as_read
    rw [if_neg h]
  · intro m t h
    exact mark_as_replied_of_replied t h
  · intro m t1 t2
    by_cases h : m.status = MessageStatus.pending ∨ m.status = MessageStatus.read
    · have h1 : (m.mark_as_replied t1).status = MessageStatus.replied := by
        unfold ContactMessage.mark_as_replied
        rw [if_pos h]
      rw [mark_as_replied_of_replied t2 h1]
    · have h1 : m.mark_as_replied t1 = m := by
        unfold ContactMessage.mark_as_replied
        rw [if_neg h]
      rw [h1]
      unfold ContactMessage.mark_as_replied
      rw [if_neg h]
  · intro m t h hr
    have hc : m.status = MessageStatus.pending ∨ m.status = MessageStatus.read := by
      cases hs : m.status
      · exact Or.inl rfl
      · exact Or.inr rfl
      · exact absurd hs h
    unfold ContactMessage.mark_as_replied
    rw [if_pos hc]
    simp [hr]
  · intro m t1 t2 h
    have h1 : m.mark_as_read t1 =
        { m with status := MessageStatus.read, read_at := some t1 } := by
      unfold ContactMessage.mark_as_read
      rw [if_pos h]
    rw [h1]
    unfold ContactMessage.mark_as_replied
    simp

/-- Witness for C5: on a freshly pending message, reading at time 5 then
replying at time 9 leaves `read_at` at 5. -/
theorem contact_message_lifecycle_witness :
    (⟨"m1", "Ada", "ada@mail.co", "hello there, nice site!", 0,
        MessageStatus.pending, none, none⟩ : ContactMessage).status =
      MessageStatus.pending ∧
    ((⟨"m1", "Ada", "ada@mail.co", "hello there, nice site!", 0,
        MessageStatus.pending, none, none⟩ : ContactMessage).mark_as_read 5).read_at =
      some 5 ∧
    (((⟨"m1", "Ada", "ada@mail.co", "hello there, nice site!", 0,
        MessageStatus.pending, none, none⟩ : ContactMessage).mark_as_read 5).mark_as_replied
        9).read_at = some 5 :=
  ⟨rfl,
    (contact_message_lifecycle.2.2.2.2.2
      ⟨"m1", "Ada", "ada@mail.co", "hello there, nice site!", 0,
        MessageStatus.pending, none, none⟩ 5 9 rfl).1,
    (contact_message_lifecycle.2.2.2.2.2
      ⟨"m1", "Ada", "ada@mail.co", "hello there, nice site!", 0,
        MessageStatus.pending, none, none⟩ 5 9 rfl).2⟩

/-- C6: for every owner, adding a second skill with the name of an existing
skill of that owner fails with the conflict error
`DuplicateException("Skill", "name", name)` — a signal distinct from the
field-level validation errors — and leaves the stored collection unchanged,
while adding a skill with the same name under a different owner succeeds. -/
theorem add_skill_name_conflict
    (store : List SkillDoc) (newId1 newId2 newId3 : String)
    (req req2 : AddSkillRequest)
    (hvp : validate_profile_id req.profile_id = .ok ())
    (hn : isBlank req.name = false) (hc : isBlank req.category = false)
    (hoi : ¬ req.order_index < 0) (hlv : req.level = none)
    (hnot : exists_by_name store req.profile_id req.name = false) :
    addSkillExecute store newId1 req =
      (.ok ⟨newId1, req.profile_id, req.name, req.category, req.order_index, none⟩,
        store ++ [⟨newId1, req.profile_id, req.name, req.category,
          req.order_index, none⟩]) ∧
    addSkillExecute
        (store ++ [⟨newId1, req.profile_id, req.name, req.category,
          req.order_index, none⟩]) newId2 req =
      (.error (.duplicate "Skill" "name" req.name),
        store ++ [⟨newId1, req.profile_id, req.name, req.category,
          req.order_index, none⟩]) ∧
    (req2.name = req.name → req2.profile_id ≠ req.profile_id →
      validate_profile_id req2.profile_id = .ok () →
      isBlank req2.category = false → ¬ req2.order_index < 0 →
      req2.level = none →
      exists_by_name store req2.profile_id req2.name = false →
      (addSkillExecute
          (store ++ [⟨newId1, req.profile_id, req.name, req.category,
            req.order_index, none⟩]) newId3 req2).1 =
        .ok ⟨newId3, req2.profile_id, req2.name, req2.category,
          req2.order_index, none⟩) ∧
    (∀ f : String, ∀ mn mx : Option Nat,
      (DomainErr.duplicate "Skill" "name" req.name ≠ .emptyField f) ∧
      (DomainErr.duplicate "Skill" "name" req.name ≠ .invalidLength f mn mx)) := by
  have hcreate1 : skillCreate newId1 req.profile_id req.name req.category
      req.order_index req.level =
      .ok ⟨newId1, req.profile_id, req.name, req.category, req.order_index, none⟩ := by
    unfold skillCreate
    rw [hvp, hn, hc, hlv]
    simp only [Bool.false_eq_true, if_false, if_neg hoi]
    rfl
  refine ⟨?_, ?_, ?_, ?_⟩
  · unfold addSkillExecute
    rw [hnot, hcreate1]
    rfl
  · unfold addSkillExecute
    rw [show exists_by_name
        (store ++ [⟨newId1, req.profile_id, req.name, req.category,
          req.order_index, none⟩]) req.profile_id req.name = true by
      unfold exists_by_name
      rw [List.any_append]
      simp]
    rfl
  · intro hname hne hvp2 hc2 hoi2 hlv2 hnot2
    unfold addSkillExecute
    have hn2 : isBlank req2.name = false := by rw [hname]; exact hn
    have hex : exists_by_name
        (store ++ [⟨newId1, req.profile_id, req.name, req.category,
          req.order_index, none⟩]) req2.profile_id req2.name = false := by
      unfold exists_by_name
      rw [List.any_append]
      unfold exists_by_name at hnot2
      rw [hnot2]
      simp only [Bool.false_or, List.any_cons, List.any_nil, Bool.or_false]
      exact Bool.and_eq_false_iff.mpr
        (Or.inl (beq_eq_false_iff_ne.mpr fun he => hne he.symm))
    rw [hex]
    have hcreate2 : skillCreate newId3 req2.profile_id req2.name req2.category
        req2.order_index req2.level =
        .ok ⟨newId3, req2.profile_id, req2.name, req2.category,
          req2.order_index, none⟩ := by
      unfold skillCreate
      rw [hvp2, hn2, hc2, hlv2]
      simp only [Bool.false_eq_true, if_false, if_neg hoi2]
      rfl
    rw [hcreate2]
    rfl
  · intro f mn mx
    exact ⟨fun h => DomainErr.noConfusion h, fun h => DomainErr.noConfusion h⟩

/-- Witness for C6: concrete run adding `"Python"` for owner `"p1"` twice
(second attempt conflicts) and once for owner `"p2"` (succeeds). -/
theorem add_skill_name_conflict_witness :
    (validate_profile_id "p1" = .ok () ∧ isBlank "Python" = false ∧
      exists_by_name [] "p1" "Python" = false) ∧
    addSkillExecute [] "s1" ⟨"p1", "Python", "backend", 0, none⟩ =
      (.ok ⟨"s1", "p1", "Python", "backend", 0, none⟩,
        [⟨"s1", "p1", "Python", "backend", 0, none⟩]) ∧
    addSkillExecute [⟨"s1", "p1", "Python", "backend", 0, none⟩] "s2"
        ⟨"p1", "Python", "backend", 0, none⟩ =
      (.error (.duplicate "Skill" "name" "Python"),
        [⟨"s1", "p1", "Python", "backend", 0, none⟩]) ∧
    (addSkillExecute [⟨"s1", "p1", "Python", "backend", 0, none⟩] "s3"
        ⟨"p2", "Python", "backend", 0, none⟩).1 =
      .ok ⟨"s3", "p2", "Python", "backend", 0, none⟩ := by
  have h := add_skill_name_conflict [] "s1" "s2" "s3"
    ⟨"p1", "Python", "backend", 0, none⟩ ⟨"p2", "Python", "backend", 0, none⟩
    rfl (by decide) (by decide) (by decide) rfl (by decide)
  refine ⟨⟨rfl, by decide, by decide⟩, ?_, ?_, ?_⟩
  · have h1 := h.1
    simpa using h1
  · have h2 := h.2.1
    simpa using h2
  · have h3 := h.2.2.1 rfl (by decide) rfl (by decide) (by decide) rfl
      (by decide)
    simpa using h3

/-- A 100-character description, long enough to satisfy the sufficiency rule
without URLs. -/
def longDesc : String := String.mk (List.replicate 100 'a')

/-- Valid `projects` document in the variant where every optional key
(`end_date`, `live_url`, `repo_url`, `technologies`) is omitted. -/
def projDocNoTech : ProjectDoc :=
  ⟨"pj1", "p1", "Portfolio API", longDesc, 0, 0, none, none, none, none, 5, 5⟩

/-- Counterexample to C9: the valid persistence document `projDocNoTech`
(with the optional `technologies` key omitted) maps to the domain and back
to a document that now carries `technologies: []`, so
`to_persistence(to_domain(doc)) ≠ doc` on this variant. -/
theorem project_roundtrip_counterexample :
    ProjectMapper.to_domain (fun _ => false) projDocNoTech =
      .ok ⟨"pj1", "p1", "Portfolio API", longDesc, 0, 0, none, none, none,
        [], 5, 5⟩ ∧
    ProjectMapper.to_persistence
        ⟨"pj1", "p1", "Portfolio API", longDesc, 0, 0, none, none, none,
          [], 5, 5⟩ ≠ projDocNoTech := by
  constructor
  · rfl
  · intro h
    exact Option.noConfusion (congrArg ProjectDoc.technologies h)

/-- C9 as amended: for every valid persistence document, mapping to the
domain and back is the identity on every field except that the
`technologies` key is always (re)written: when the key was present the
round-trip is the identity, and when it was omitted the result is the same
document with `technologies: []` added. -/
theorem project_mapper_roundtrip_amended
    (urlOk : String → Bool) (doc : ProjectDoc)
    (h1 : validate_profile_id doc.profile_id = .ok ())
    (h2 : Project.validateTitle doc.title = .ok ())
    (h3 : Project.validateDescription doc.description = .ok ())
    (h4 : validateDates doc.start_date doc.end_date = .ok ())
    (h5 : validateOptUrl urlOk doc.live_url = .ok doc.live_url)
    (h6 : validateOptUrl urlOk doc.repo_url = .ok doc.repo_url)
    (h7 : Project.validateTechnologies (doc.technologies.getD []) = .ok ())
    (h8 : Project.validateOrderIndex doc.order_index = .ok ())
    (h9 : Project.validateSufficiency doc.description doc.live_url
      doc.repo_url = .ok ()) :
    ∃ p, ProjectMapper.to_domain urlOk doc = .ok p ∧
      ProjectMapper.to_persistence p =
        { doc with technologies := some (doc.technologies.getD []) } ∧
      (∀ ts, doc.technologies = some ts → ProjectMapper.to_persistence p = doc) := by
  obtain ⟨did, dpf, dti, dde, dsd, doi, ded, dlu, dru, dte, dca, dua⟩ := doc
  refine ⟨⟨did, dpf, dti, dde, dsd, doi, ded, dlu, dru, dte.getD [], dca, dua⟩,
    ?_, ?_, ?_⟩
  · dsimp only at h1 h2 h3 h4 h5 h6 h7 h8 h9
    unfold ProjectMapper.to_domain Project.init
    dsimp only
    rw [h1, h2, h3, h4, h5, h6, h7, h8]
    show (Project.validateSufficiency dde dlu dru >>= fun _ =>
        (Except.ok ⟨did, dpf, dti, dde, dsd, doi, ded, dlu, dru, dte.getD [],
          dca, dua⟩ : Except DomainErr Project)) =
      Except.ok ⟨did, dpf, dti, dde, dsd, doi, ded, dlu, dru, dte.getD [],
        dca, dua⟩
    rw [h9]
    rfl
  · rfl
  · intro ts hts
    have hdte : dte = some ts := hts
    subst hdte
    rfl

/-- Witness for the amended C9: a concrete valid document with the
`technologies` key present round-trips to itself. -/
theorem project_mapper_roundtrip_amended_witness :
    ∃ p, ProjectMapper.to_domain (fun _ => false)
        (⟨"pj2", "p1", "Portfolio API", longDesc, 0, 0, none, none, none,
          some ["Python"], 5, 5⟩ : ProjectDoc) = .ok p ∧
      ProjectMapper.to_persistence p =
        { (⟨"pj2", "p1", "Portfolio API", longDesc, 0, 0, none, none, none,
            some ["Python"], 5, 5⟩ : ProjectDoc) with
          technologies := some ((some ["Python"]).getD []) } ∧
      (∀ ts, (some ["Python"] : Option (List String)) = some ts →
        ProjectMapper.to_persistence p =
          ⟨"pj2", "p1", "Portfolio API", longDesc, 0, 0, none, none, none,
            some ["Python"], 5, 5⟩) :=
  project_mapper_roundtrip_amended (fun _ => false)
    ⟨"pj2", "p1", "Portfolio API", longDesc, 0, 0, none, none, none,
      some ["Python"], 5, 5⟩ rfl rfl rfl rfl rfl rfl rfl rfl rfl

/-- Merge of an optional update argument with the stored value: a Python
`None` argument means "leave unchanged". -/
def mergeOpt {α : Type} (new? : Option α) (old : α) : α :=
  match new? with
  | none => old
  | some a => a

/-- Merge of an optional patch value with a stored optional value: a Python
`None` argument leaves the stored value, a supplied value replaces it. -/
def mergePatch {α : Type} (new? : Option α) (old : Option α) : Option α :=
  match new? with
  | none => old
  | some a => some a

theorem validateDates_none (s : Int) : validateDates s none = .ok () := rfl

theorem validateDates_le {s e : Int} (h : e ≤ s) :
    validateDates s (some e) = .error (.invalidDateRange s e) := by
  unfold validateDates
  dsimp only
  rw [if_pos h]

theorem validateDates_gt {s e : Int} (h : s < e) :
    validateDates s (some e) = .ok () := by
  unfold validateDates
  dsimp only
  rw [if_neg (not_le.mpr h)]

theorem validateOptUrl_blank {urlOk : String → Bool} {s : String}
    (h : isBlank s = true) : validateOptUrl urlOk (some s) = .ok none := by
  unfold validateOptUrl
  dsimp only
  rw [if_pos h]

theorem validateOptDescription_blank {maxLen : Nat} {s : String}
    (h : isBlank s = true) :
    validateOptDescription maxLen (some s) = .ok none := by
  unfold validateOptDescription
  dsimp only
  rw [if_pos h]

theorem validateBio_blank {s : String} (h : isBlank s = true) :
    Profile.validateBio (some s) = .ok none := by
  unfold Profile.validateBio
  dsimp only
  rw [if_pos h]

theorem validateLocation_blank {s : String} (h : isBlank s = true) :
    Profile.validateLocation (some s) = .ok none := by
  unfold Profile.validateLocation
  dsimp only
  rw [if_pos h]

/-- Characterization of the sufficiency check: it raises the sufficiency
error exactly when no URL is present and the description has fewer than 100
characters, and succeeds otherwise. -/
theorem validateSufficiency_spec (description : String) (live repo : Option String) :
    (Project.validateSufficiency description live repo =
        .error (.invalidDescription Project.suffMsg) ↔
      Project.has_urls live repo = false ∧
        description.length < Project.MIN_DESCRIPTION_WITHOUT_URLS) ∧
    (¬ (Project.has_urls live repo = false ∧
        description.length < Project.MIN_DESCRIPTION_WITHOUT_URLS) →
      Project.validateSufficiency description live repo = .ok ()) := by
  have hc : ((!(Project.has_urls live repo) &&
      decide (description.length < Project.MIN_DESCRIPTION_WITHOUT_URLS)) = true) ↔
      (Project.has_urls live repo = false ∧
        description.length < Project.MIN_DESCRIPTION_WITHOUT_URLS) := by
    simp [Bool.and_eq_true, Bool.not_eq_true']
  unfold Project.validateSufficiency
  by_cases h : (!(Project.has_urls live repo) &&
      decide (description.length < Project.MIN_DESCRIPTION_WITHOUT_URLS)) = true
  · rw [if_pos h]
    exact ⟨⟨fun _ => hc.mp h, fun _ => rfl⟩, fun hn => absurd (hc.mp h) hn⟩
  · rw [if_neg h]
    exact ⟨⟨fun he => Except.noConfusion he, fun hcond => absurd (hc.mpr hcond) h⟩,
      fun _ => rfl⟩

theorem project_create_reduce {urlOk : String → Bool} {newId : String}
    {now : Int} {profile_id title description : String} {sd oi : Int}
    {ed : Option Int} {lu ru : Option String} {techs : Option (List String)}
    (h1 : validate_profile_id profile_id = .ok ())
    (h2 : Project.validateTitle title = .ok ())
    (h3 : Project.validateDescription description = .ok ())
    (h5 : validateOptUrl urlOk lu = .ok (normalizeOpt lu))
    (h6 : validateOptUrl urlOk ru = .ok (normalizeOpt ru))
    (h7 : Project.validateTechnologies (techs.getD []) = .ok ())
    (h8 : Project.validateOrderIndex oi = .ok ()) :
    Project.create urlOk newId now profile_id title description sd oi ed lu ru
        techs =
      (validateDates sd ed >>= fun _ =>
        Project.validateSufficiency description (normalizeOpt lu)
            (normalizeOpt ru) >>= fun _ =>
          Except.ok ⟨newId, profile_id, title, description, sd, oi, ed,
            normalizeOpt lu, normalizeOpt ru, techs.getD [], now, now⟩) := by
  unfold Project.create Project.init
  rw [h1, h2, h3, h5, h6, h7, h8]
  rfl

theorem work_experience_create_reduce {newId : String} {now : Int}
    {profile_id role company : String} {sd oi : Int}
    {description : Option String} {descN : Option String} {ed : Option Int}
    {resp : Option (List String)}
    (h1 : validate_profile_id profile_id = .ok ())
    (h2 : WorkExperience.validateRole role = .ok ())
    (h3 : WorkExperience.validateCompany company = .ok ())
    (h4 : validateOptDescription WorkExperience.MAX_DESCRIPTION_LENGTH
      description = .ok descN)
    (h5 : WorkExperience.validateResponsibilities (resp.getD []) = .ok ())
    (h6 : WorkExperience.validateOrderIndex oi = .ok ()) :
    WorkExperience.create newId now profile_id role company sd oi description
        ed resp =
      (validateDates sd ed >>= fun _ =>
        Except.ok ⟨newId, profile_id, role, company, sd, oi, descN, ed,
          resp.getD [], now, now⟩) := by
  unfold WorkExperience.create WorkExperience.init
  rw [h1, h2, h3, h4, h5, h6]
  rfl

theorem education_create_reduce {newId : String} {now : Int}
    {profile_id institution degree fieldOfStudy : String} {sd oi : Int}
    {description descN : Option String} {ed : Option Int}
    (h1 : validate_profile_id profile_id = .ok ())
    (h2 : Education.validateInstitution institution = .ok ())
    (h3 : Education.validateDegree degree = .ok ())
    (h4 : Education.validateField fieldOfStudy = .ok ())
    (h5 : validateOptDescription Education.MAX_DESCRIPTION_LENGTH description =
      .ok descN)
    (h6 : Education.validateOrderIndex oi = .ok ()) :
    Education.create newId now profile_id institution degree fieldOfStudy sd oi
        description ed =
      (validateDates sd ed >>= fun _ =>
        Except.ok ⟨newId, profile_id, institution, degree, fieldOfStudy, sd,
          oi, descN, ed, now, now⟩) := by
  unfold Education.create Education.init
  rw [h1, h2, h3, h4, h5, h6]
  rfl

theorem certification_create_reduce {urlOk : String → Bool} {newId : String}
    {now : Int} {profile_id title issuer : String} {sd oi : Int}
    {ed : Option Int} {cid cidN curl curlN : Option String}
    (h1 : validate_profile_id profile_id = .ok ())
    (h2 : Certification.validateTitle title = .ok ())
    (h3 : Certification.validateIssuer issuer = .ok ())
    (h4 : Certification.validateCredentialId cid = .ok cidN)
    (h5 : validateOptUrl urlOk curl = .ok curlN)
    (h6 : Certification.validateOrderIndex oi = .ok ()) :
    Certification.create urlOk newId now profile_id title issuer sd oi ed cid
        curl =
      (validateDates sd ed >>= fun _ =>
        Except.ok ⟨newId, profile_id, title, issuer, sd, oi, ed, cidN, curlN,
          now, now⟩) := by
  unfold Certification.create Certification.init
  rw [h1, h2, h3, h4, h5, h6]
  rfl

theorem project_update_info_reduce (p : Project) (now : Int)
    (t? d? : Option String) (sd? ed? : Option Int)
    (ht : ∀ v, t? = some v → Project.validateTitle v = .ok ())
    (hd : ∀ v, d? = some v → Project.validateDescription v = .ok ()) :
    Project.update_info p now t? d? sd? ed? =
      (validateDates (mergeOpt sd? p.start_date) (mergePatch ed? p.end_date) >>=
        fun _ =>
          Project.validateSufficiency (mergeOpt d? p.description) p.live_url
              p.repo_url >>= fun _ =>
            Except.ok { p with
              title := mergeOpt t? p.title
              description := mergeOpt d? p.description
              start_date := mergeOpt sd? p.start_date
              end_date := mergePatch ed? p.end_date
              updated_at := now }) := by
  rcases t? with _ | t <;> rcases d? with _ | d <;> rcases sd? with _ | sd <;>
    rcases ed? with _ | ed <;>
    unfold Project.update_info <;> (try dsimp only) <;>
    (try rw [ht t rfl]) <;> (try rw [hd d rfl]) <;> rfl

/-- Final value of a normalizing optional-string field after a patch: an
omitted argument keeps the stored value, a supplied one is normalized. -/
def patchNorm (new? : Option String) (old : Option String) : Option String :=
  match new? with
  | none => old
  | some v => normalizeOpt (some v)

theorem work_experience_update_info_reduce (w : WorkExperience) (now : Int)
    (r? c? d? : Option String) (sd? ed? : Option Int)
    (hr : ∀ v, r? = some v → WorkExperience.validateRole v = .ok ())
    (hc : ∀ v, c? = some v → WorkExperience.validateCompany v = .ok ())
    (hd : ∀ v, d? = some v →
      validateOptDescription WorkExperience.MAX_DESCRIPTION_LENGTH (some v) =
        .ok (normalizeOpt (some v))) :
    WorkExperience.update_info w now r? c? d? sd? ed? =
      (validateDates (mergeOpt sd? w.start_date) (mergePatch ed? w.end_date) >>=
        fun _ =>
          Except.ok { w with
            role := mergeOpt r? w.role
            company := mergeOpt c? w.company
            description := patchNorm d? w.description
            start_date := mergeOpt sd? w.start_date
            end_date := mergePatch ed? w.end_date
            updated_at := now }) := by
  rcases r? with _ | r <;> rcases c? with _ | c <;> rcases d? with _ | d <;>
    rcases sd? with _ | sd <;> rcases ed? with _ | ed <;>
    unfold WorkExperience.update_info <;> (try dsimp only) <;>
    (try rw [hr r rfl]) <;> (try rw [hc c rfl]) <;> (try rw [hd d rfl]) <;> rfl

theorem education_update_info_reduce (e : Education) (now : Int)
    (i? g? f? d? : Option String) (sd? ed? : Option Int)
    (hi : ∀ v, i? = some v → Education.validateInstitution v = .ok ())
    (hg : ∀ v, g? = some v → Education.validateDegree v = .ok ())
    (hf : ∀ v, f? = some v → Education.validateField v = .ok ())
    (hd : ∀ v, d? = some v →
      validateOptDescription Education.MAX_DESCRIPTION_LENGTH (some v) =
        .ok (normalizeOpt (some v))) :
    Education.update_info e now i? g? f? d? sd? ed? =
      (validateDates (mergeOpt sd? e.start_date) (mergePatch ed? e.end_date) >>=
        fun _ =>
          Except.ok { e with
            institution := mergeOpt i? e.institution
            degree := mergeOpt g? e.degree
            field := mergeOpt f? e.field
            description := patchNorm d? e.description
            start_date := mergeOpt sd? e.start_date
            end_date := mergePatch ed? e.end_date
            updated_at := now }) := by
  rcases i? with _ | i <;> rcases g? with _ | g <;> rcases f? with _ | f <;>
    rcases d? with _ | d <;> rcases sd? with _ | sd <;> rcases ed? with _ | ed <;>
    unfold Education.update_info <;> (try dsimp only) <;>
    (try rw [hi i rfl]) <;> (try rw [hg g rfl]) <;> (try rw [hf f rfl]) <;>
    (try rw [hd d rfl]) <;> rfl

theorem certification_update_info_reduce (urlOk : String → Bool)
    (c : Certification) (now : Int) (t? i? : Option String)
    (sd? ed? : Option Int) (cid? curl? : Option String)
    (ht : ∀ v, t? = some v → Certification.validateTitle v = .ok ())
    (hi : ∀ v, i? = some v → Certification.validateIssuer v = .ok ())
    (hcid : ∀ v, cid? = some v →
      Certification.validateCredentialId (some v) = .ok (normalizeOpt (some v)))
    (hcurl : ∀ v, curl? = some v →
      validateOptUrl urlOk (some v) = .ok (normalizeOpt (some v))) :
    Certification.update_info urlOk c now t? i? sd? ed? cid? curl? =
      (validateDates (mergeOpt sd? c.issue_date) (mergePatch ed? c.expiry_date) >>=
        fun _ =>
          Except.ok { c with
            title := mergeOpt t? c.title
            issuer := mergeOpt i? c.issuer
            issue_date := mergeOpt sd? c.issue_date
            expiry_date := mergePatch ed? c.expiry_date
            credential_id := patchNorm cid? c.credential_id
            credential_url := patchNorm curl? c.credential_url
            updated_at := now }) := by
  rcases t? with _ | t <;> rcases i? with _ | i <;> rcases sd? with _ | sd <;>
    rcases ed? with _ | ed <;> rcases cid? with _ | cid <;>
    rcases curl? with _ | curl <;>
    unfold Certification.update_info <;> (try dsimp only) <;>
    (try rw [ht t rfl]) <;> (try rw [hi i rfl]) <;> (try rw [hcid cid rfl]) <;>
    (try rw [hcurl curl rfl]) <;> rfl

theorem project_update_urls_reduce {urlOk : String → Bool} {p : Project}
    {now : Int} {lu? ru? : Option String} {L R : Option String}
    (hl : validateOptUrl urlOk (mergePatch lu? p.live_url) = .ok L)
    (hr : validateOptUrl urlOk (mergePatch ru? p.repo_url) = .ok R) :
    Project.update_urls urlOk p now lu? ru? =
      (Project.validateSufficiency p.description L R >>= fun _ =>
        Except.ok { p with live_url := L, repo_url := R, updated_at := now }) := by
  rcases lu? with _ | lu <;> rcases ru? with _ | ru <;>
    (try dsimp only [mergePatch] at hl hr) <;>
    unfold Project.update_urls <;> (try dsimp only) <;> rw [hl, hr] <;> rfl

/-- C3: for every date-ranged entity (WorkExperience, Education, Project,
Certification), creation and every update that leaves both ends of the range
known raise `InvalidDateRangeError` exactly when the end is less than or
equal to the start (given that the other supplied fields pass their own
validators); omitting the end date always passes the date check. The eight
conjuncts cover `create` and `update_info` of the four entities. -/
theorem date_range_strict_spec :
    (∀ (urlOk : String → Bool) (newId : String) (now : Int)
        (profile_id title description : String) (sd oi : Int)
        (ed : Option Int) (lu ru : Option String) (techs : Option (List String)),
        validate_profile_id profile_id = .ok () →
        Project.validateTitle title = .ok () →
        Project.validateDescription description = .ok () →
        validateOptUrl urlOk lu = .ok (normalizeOpt lu) →
        validateOptUrl urlOk ru = .ok (normalizeOpt ru) →
        Project.validateTechnologies (techs.getD []) = .ok () →
        Project.validateOrderIndex oi = .ok () →
        Project.validateSufficiency description (normalizeOpt lu)
          (normalizeOpt ru) = .ok () →
        ((ed = none → ∃ q, Project.create urlOk newId now profile_id title
            description sd oi ed lu ru techs = .ok q) ∧
          (∀ e, ed = some e →
            (e ≤ sd → Project.create urlOk newId now profile_id title
              description sd oi ed lu ru techs =
                .error (.invalidDateRange sd e)) ∧
            (sd < e → ∃ q, Project.create urlOk newId now profile_id title
              description sd oi ed lu ru techs = .ok q)))) ∧
    (∀ (newId : String) (now : Int) (profile_id role company : String)
        (sd oi : Int) (description descN : Option String) (ed : Option Int)
        (resp : Option (List String)),
        validate_profile_id profile_id = .ok () →
        WorkExperience.validateRole role = .ok () →
        WorkExperience.validateCompany company = .ok () →
        validateOptDescription WorkExperience.MAX_DESCRIPTION_LENGTH
          description = .ok descN →
        WorkExperience.validateResponsibilities (resp.getD []) = .ok () →
        WorkExperience.validateOrderIndex oi = .ok () →
        ((ed = none → ∃ q, WorkExperience.create newId now profile_id role
            company sd oi description ed resp = .ok q) ∧
          (∀ e, ed = some e →
            (e ≤ sd → WorkExperience.create newId now profile_id role company
              sd oi description ed resp = .error (.invalidDateRange sd e)) ∧
            (sd < e → ∃ q, WorkExperience.create newId now profile_id role
              company sd oi description ed resp = .ok q)))) ∧
    (∀ (newId : String) (now : Int)
        (profile_id institution degree fieldOfStudy : String) (sd oi : Int)
        (description descN : Option String) (ed : Option Int),
        validate_profile_id profile_id = .ok () →
        Education.validateInstitution institution = .ok () →
        Education.validateDegree degree = .ok () →
        Education.validateField fieldOfStudy = .ok () →
        validateOptDescription Education.MAX_DESCRIPTION_LENGTH description =
          .ok descN →
        Education.validateOrderIndex oi = .ok () →
        ((ed = none → ∃ q, Education.create newId now profile_id institution
            degree fieldOfStudy sd oi description ed = .ok q) ∧
          (∀ e, ed = some e →
            (e ≤ sd → Education.create newId now profile_id institution degree
              fieldOfStudy sd oi description ed =
                .error (.invalidDateRange sd e)) ∧
            (sd < e → ∃ q, Education.create newId now profile_id institution
              degree fieldOfStudy sd oi description ed = .ok q)))) ∧
    (∀ (urlOk : String → Bool) (newId : String) (now : Int)
        (profile_id title issuer : String) (sd oi : Int) (ed : Option Int)
        (cid cidN curl curlN : Option String),
        validate_profile_id profile_id = .ok () →
        Certification.validateTitle title = .ok () →
        Certification.validateIssuer issuer = .ok () →
        Certification.validateCredentialId cid = .ok cidN →
        validateOptUrl urlOk curl = .ok curlN →
        Certification.validateOrderIndex oi = .ok () →
        ((ed = none → ∃ q, Certification.create urlOk newId now profile_id
            title issuer sd oi ed cid curl = .ok q) ∧
          (∀ e, ed = some e →
            (e ≤ sd → Certification.create urlOk newId now profile_id title
              issuer sd oi ed cid curl = .error (.invalidDateRange sd e)) ∧
            (sd < e → ∃ q, Certification.create urlOk newId now profile_id
              title issuer sd oi ed cid curl = .ok q)))) ∧
    (∀ (p : Project) (now : Int) (t? d? : Option String) (sd? ed? : Option Int),
        (∀ v, t? = some v → Project.validateTitle v = .ok ()) →
        (∀ v, d? = some v → Project.validateDescription v = .ok ()) →
        Project.validateSufficiency (mergeOpt d? p.description) p.live_url
          p.repo_url = .ok () →
        ((mergePatch ed? p.end_date = none →
            ∃ q, Project.update_info p now t? d? sd? ed? = .ok q) ∧
          (∀ e, mergePatch ed? p.end_date = some e →
            (e ≤ mergeOpt sd? p.start_date →
              Project.update_info p now t? d? sd? ed? =
                .error (.invalidDateRange (mergeOpt sd? p.start_date) e)) ∧
            (mergeOpt sd? p.start_date < e →
              ∃ q, Project.update_info p now t? d? sd? ed? = .ok q)))) ∧
    (∀ (w : WorkExperience) (now : Int) (r? c? d? : Option String)
        (sd? ed? : Option Int),
        (∀ v, r? = some v → WorkExperience.validateRole v = .ok ()) →
        (∀ v, c? = some v → WorkExperience.validateCompany v = .ok ()) →
        (∀ v, d? = some v →
          validateOptDescription WorkExperience.MAX_DESCRIPTION_LENGTH
            (some v) = .ok (normalizeOpt (some v))) →
        ((mergePatch ed? w.end_date = none →
            ∃ q, WorkExperience.update_info w now r? c? d? sd? ed? = .ok q) ∧
          (∀ e, mergePatch ed? w.end_date = some e →
            (e ≤ mergeOpt sd? w.start_date →
              WorkExperience.update_info w now r? c? d? sd? ed? =
                .error (.invalidDateRange (mergeOpt sd? w.start_date) e)) ∧
            (mergeOpt sd? w.start_date < e →
              ∃ q, WorkExperience.update_info w now r? c? d? sd? ed? = .ok q)))) ∧
    (∀ (ent : Education) (now : Int) (i? g? f? d? : Option String)
        (sd? ed? : Option Int),
        (∀ v, i? = some v → Education.validateInstitution v = .ok ()) →
        (∀ v, g? = some v → Education.validateDegree v = .ok ()) →
        (∀ v, f? = some v → Education.validateField v = .ok ()) →
        (∀ v, d? = some v →
          validateOptDescription Education.MAX_DESCRIPTION_LENGTH (some v) =
            .ok (normalizeOpt (some v))) →
        ((mergePatch ed? ent.end_date = none →
            ∃ q, Education.update_info ent now i? g? f? d? sd? ed? = .ok q) ∧
          (∀ e, mergePatch ed? ent.end_date = some e →
            (e ≤ mergeOpt sd? ent.start_date →
              Education.update_info ent now i? g? f? d? sd? ed? =
                .error (.invalidDateRange (mergeOpt sd? ent.start_date) e)) ∧
            (mergeOpt sd? ent.start_date < e →
              ∃ q, Education.update_info ent now i? g? f? d? sd? ed? = .ok q)))) ∧
    (∀ (urlOk : String → Bool) (cert : Certification) (now : Int)
        (t? i? : Option String) (sd? ed? : Option Int)
        (cid? curl? : Option String),
        (∀ v, t? = some v → Certification.validateTitle v = .ok ()) →
        (∀ v, i? = some v → Certification.validateIssuer v = .ok ()) →
        (∀ v, cid? = some v → Certification.validateCredentialId (some v) =
          .ok (normalizeOpt (some v))) →
        (∀ v, curl? = some v → validateOptUrl urlOk (some v) =
          .ok (normalizeOpt (some v))) →
        ((mergePatch ed? cert.expiry_date = none →
            ∃ q, Certification.update_info urlOk cert now t? i? sd? ed? cid?
              curl? = .ok q) ∧
          (∀ e, mergePatch ed? cert.expiry_date = some e →
            (e ≤ mergeOpt sd? cert.issue_date →
              Certification.update_info urlOk cert now t? i? sd? ed? cid?
                curl? = .error (.invalidDateRange (mergeOpt sd? cert.issue_date) e)) ∧
            (mergeOpt sd? cert.issue_date < e →
              ∃ q, Certification.update_info urlOk cert now t? i? sd? ed? cid?
                curl? = .ok q)))) := by
  refine ⟨?_, ?_, ?_, ?_, ?_, ?_, ?_, ?_⟩
  · intro urlOk newId now profile_id title description sd oi ed lu ru techs
      h1 h2 h3 h5 h6 h7 h8 hsuff
    rw [project_create_reduce h1 h2 h3 h5 h6 h7 h8]
    refine ⟨?_, ?_⟩
    · intro hend
      subst hend
      rw [hsuff]
      exact ⟨_, rfl⟩
    · intro e hend
      subst hend
      refine ⟨?_, ?_⟩
      · intro hle
        rw [validateDates_le hle]
        rfl
      · intro hgt
        rw [validateDates_gt hgt, hsuff]
        exact ⟨_, rfl⟩
  · intro newId now profile_id role company sd oi description descN ed resp
      h1 h2 h3 h4 h5 h6
    rw [work_experience_create_reduce h1 h2 h3 h4 h5 h6]
    refine ⟨?_, ?_⟩
    · intro hend
      subst hend
      exact ⟨_, rfl⟩
    · intro e hend
      subst hend
      refine ⟨?_, ?_⟩
      · intro hle
        rw [validateDates_le hle]
        rfl
      · intro hgt
        rw [validateDates_gt hgt]
        exact ⟨_, rfl⟩
  · intro newId now profile_id institution degree fieldOfStudy sd oi
      description descN ed h1 h2 h3 h4 h5 h6
    rw [education_create_reduce h1 h2 h3 h4 h5 h6]
    refine ⟨?_, ?_⟩
    · intro hend
      subst hend
      exact ⟨_, rfl⟩
    · intro e hend
      subst hend
      refine ⟨?_, ?_⟩
      · intro hle
        rw [validateDates_le hle]
        rfl
      · intro hgt
        rw [validateDates_gt hgt]
        exact ⟨_, rfl⟩
  · intro urlOk newId now profile_id title issuer sd oi ed cid cidN curl curlN
      h1 h2 h3 h4 h5 h6
    rw [certification_create_reduce h1 h2 h3 h4 h5 h6]
    refine ⟨?_, ?_⟩
    · intro hend
      subst hend
      exact ⟨_, rfl⟩
    · intro e hend
      subst hend
      refine ⟨?_, ?_⟩
      · intro hle
        rw [validateDates_le hle]
        rfl
      · intro hgt
        rw [validateDates_gt hgt]
        exact ⟨_, rfl⟩
  · intro p now t? d? sd? ed? ht hd hsuff
    rw [project_update_info_reduce p now t? d? sd? ed? ht hd]
    refine ⟨?_, ?_⟩
    · intro hend
      rw [hend, hsuff]
      exact ⟨_, rfl⟩
    · intro e hend
      rw [hend]
      refine ⟨?_, ?_⟩
      · intro hle
        rw [validateDates_le hle]
        rfl
      · intro hgt
        rw [validateDates_gt hgt, hsuff]
        exact ⟨_, rfl⟩
  · intro w now r? c? d? sd? ed? hr hc hd
    rw [work_experience_update_info_reduce w now r? c? d? sd? ed? hr hc hd]
    refine ⟨?_, ?_⟩
    · intro hend
      rw [hend]
      exact ⟨_, rfl⟩
    · intro e hend
      rw [hend]
      refine ⟨?_, ?_⟩
      · intro hle
        rw [validateDates_le hle]
        rfl
      · intro hgt
        rw [validateDates_gt hgt]
        exact ⟨_, rfl⟩
  · intro ent now i? g? f? d? sd? ed? hi hg hf hd
    rw [education_update_info_reduce ent now i? g? f? d? sd? ed? hi hg hf hd]
    refine ⟨?_, ?_⟩
    · intro hend
      rw [hend]
      exact ⟨_, rfl⟩
    · intro e hend
      rw [hend]
      refine ⟨?_, ?_⟩
      · intro hle
        rw [validateDates_le hle]
        rfl
      · intro hgt
        rw [validateDates_gt hgt]
        exact ⟨_, rfl⟩
  · intro urlOk cert now t? i? sd? ed? cid? curl? ht hi hcid hcurl
    rw [certification_update_info_reduce urlOk cert now t? i? sd? ed? cid?
      curl? ht hi hcid hcurl]
    refine ⟨?_, ?_⟩
    · intro hend
      rw [hend]
      exact ⟨_, rfl⟩
    · intro e hend
      rw [hend]
      refine ⟨?_, ?_⟩
      · intro hle
        rw [validateDates_le hle]
        rfl
      · intro hgt
        rw [validateDates_gt hgt]
        exact ⟨_, rfl⟩

/-- Witness for C3: concrete WorkExperience creations with `end_date` equal
to, one unit after, and omitted relative to `start_date = 5`. -/
theorem date_range_strict_spec_witness :
    WorkExperience.create "w1" 0 "p1" "Engineer" "Acme" 5 0 none (some 5)
        none = .error (.invalidDateRange 5 5) ∧
    (∃ q, WorkExperience.create "w1" 0 "p1" "Engineer" "Acme" 5 0 none
      (some 6) none = .ok q) ∧
    (∃ q, WorkExperience.create "w1" 0 "p1" "Engineer" "Acme" 5 0 none none
      none = .ok q) :=
  ⟨((date_range_strict_spec.2.1 "w1" 0 "p1" "Engineer" "Acme" 5 0 none none
      (some 5) none rfl rfl rfl rfl rfl rfl).2 5 rfl).1 (le_refl 5),
    ((date_range_strict_spec.2.1 "w1" 0 "p1" "Engineer" "Acme" 5 0 none none
      (some 6) none rfl rfl rfl rfl rfl rfl).2 6 rfl).2 (by omega),
    (date_range_strict_spec.2.1 "w1" 0 "p1" "Engineer" "Acme" 5 0 none none
      none none rfl rfl rfl rfl rfl rfl).1 rfl⟩

theorem suff_bind_spec (description : String) (live repo : Option String)
    (r : Project) :
    ((Project.validateSufficiency description live repo >>= fun _ =>
        (Except.ok r : Except DomainErr Project)) =
        .error (.invalidDescription Project.suffMsg) ↔
      Project.has_urls live repo = false ∧
        description.length < Project.MIN_DESCRIPTION_WITHOUT_URLS) ∧
    (¬ (Project.has_urls live repo = false ∧
        description.length < Project.MIN_DESCRIPTION_WITHOUT_URLS) →
      (Project.validateSufficiency description live repo >>= fun _ =>
        (Except.ok r : Except DomainErr Project)) = .ok r) := by
  obtain ⟨hiff, hok⟩ := validateSufficiency_spec description live repo
  by_cases hcond : Project.has_urls live repo = false ∧
      description.length < Project.MIN_DESCRIPTION_WITHOUT_URLS
  · rw [hiff.mpr hcond]
    exact ⟨⟨fun _ => hcond, fun _ => rfl⟩, fun hn => absurd hcond hn⟩
  · rw [hok hcond]
    exact ⟨⟨fun he => absurd (Except.noConfusion he) id, fun hc => absurd hc hcond⟩,
      fun _ => rfl⟩

/-- C4: a Project whose live and repo URL are both absent must have a
description of at least 100 characters (`MIN_DESCRIPTION_WITHOUT_URLS`,
versus the base minimum of 10), and this conditional check is re-evaluated
by `create`, by `update_info` and by `update_urls` on the final state,
failing with the sufficiency error exactly when the project ends up with no
URLs and a description shorter than 100 characters (other supplied fields
assumed to pass their own validators). -/
theorem project_sufficiency_rule :
    (∀ (urlOk : String → Bool) (newId : String) (now : Int)
        (profile_id title description : String) (sd oi : Int)
        (ed : Option Int) (lu ru : Option String) (techs : Option (List String)),
        validate_profile_id profile_id = .ok () →
        Project.validateTitle title = .ok () →
        Project.validateDescription description = .ok () →
        validateDates sd ed = .ok () →
        validateOptUrl urlOk lu = .ok (normalizeOpt lu) →
        validateOptUrl urlOk ru = .ok (normalizeOpt ru) →
        Project.validateTechnologies (techs.getD []) = .ok () →
        Project.validateOrderIndex oi = .ok () →
        ((Project.create urlOk newId now profile_id title description sd oi ed
            lu ru techs = .error (.invalidDescription Project.suffMsg) ↔
          Project.has_urls (normalizeOpt lu) (normalizeOpt ru) = false ∧
            description.length < Project.MIN_DESCRIPTION_WITHOUT_URLS) ∧
          (¬ (Project.has_urls (normalizeOpt lu) (normalizeOpt ru) = false ∧
              description.length < Project.MIN_DESCRIPTION_WITHOUT_URLS) →
            Project.create urlOk newId now profile_id title description sd oi
              ed lu ru techs = .ok ⟨newId, profile_id, title, description, sd,
                oi, ed, normalizeOpt lu, normalizeOpt ru, techs.getD [], now,
                now⟩))) ∧
    (∀ (p : Project) (now : Int) (t? d? : Option String) (sd? ed? : Option Int),
        (∀ v, t? = some v → Project.validateTitle v = .ok ()) →
        (∀ v, d? = some v → Project.validateDescription v = .ok ()) →
        validateDates (mergeOpt sd? p.start_date) (mergePatch ed? p.end_date) =
          .ok () →
        ((Project.update_info p now t? d? sd? ed? =
            .error (.invalidDescription Project.suffMsg) ↔
          Project.has_urls p.live_url p.repo_url = false ∧
            (mergeOpt d? p.description).length <
              Project.MIN_DESCRIPTION_WITHOUT_URLS) ∧
          (¬ (Project.has_urls p.live_url p.repo_url = false ∧
              (mergeOpt d? p.description).length <
                Project.MIN_DESCRIPTION_WITHOUT_URLS) →
            ∃ q, Project.update_info p now t? d? sd? ed? = .ok q))) ∧
    (∀ (urlOk : String → Bool) (p : Project) (now : Int)
        (lu? ru? : Option String) (L R : Option String),
        validateOptUrl urlOk (mergePatch lu? p.live_url) = .ok L →
        validateOptUrl urlOk (mergePatch ru? p.repo_url) = .ok R →
        ((Project.update_urls urlOk p now lu? ru? =
            .error (.invalidDescription Project.suffMsg) ↔
          Project.has_urls L R = false ∧
            p.description.length < Project.MIN_DESCRIPTION_WITHOUT_URLS) ∧
          (¬ (Project.has_urls L R = false ∧
              p.description.length < Project.MIN_DESCRIPTION_WITHOUT_URLS) →
            Project.update_urls urlOk p now lu? ru? =
              .ok { p with live_url := L, repo_url := R, updated_at := now }))) := by
  refine ⟨?_, ?_, ?_⟩
  · intro urlOk newId now profile_id title description sd oi ed lu ru techs
      h1 h2 h3 hdt h5 h6 h7 h8
    rw [project_create_reduce h1 h2 h3 h5 h6 h7 h8, hdt]
    exact suff_bind_spec description (normalizeOpt lu) (normalizeOpt ru) _
  · intro p now t? d? sd? ed? ht hd hdt
    rw [project_update_info_reduce p now t? d? sd? ed? ht hd, hdt]
    obtain ⟨hiff, hok⟩ := suff_bind_spec (mergeOpt d? p.description) p.live_url
      p.repo_url { p with
        title := mergeOpt t? p.title
        description := mergeOpt d? p.description
        start_date := mergeOpt sd? p.start_date
        end_date := mergePatch ed? p.end_date
        updated_at := now }
    exact ⟨hiff, fun hn => ⟨_, hok hn⟩⟩
  · intro urlOk p now lu? ru? L R hl hr
    rw [project_update_urls_reduce hl hr]
    exact suff_bind_spec p.description L R _

/-- A 50-character description: long enough for the base minimum of 10 but
short of the 100-character threshold of the sufficiency rule. -/
def shortDesc : String := String.mk (List.replicate 50 'b')

/-- Witness for C4: on a concrete URL-less project with a 50-character
description, `create` fails with exactly the sufficiency error. -/
theorem project_sufficiency_rule_witness :
    ((Project.create (fun _ => true) "pj" 0 "p1" "T" shortDesc 0 0 none none
        none none = .error (.invalidDescription Project.suffMsg) ↔
      Project.has_urls (normalizeOpt none) (normalizeOpt none) = false ∧
        shortDesc.length < Project.MIN_DESCRIPTION_WITHOUT_URLS) ∧
      (¬ (Project.has_urls (normalizeOpt none) (normalizeOpt none) = false ∧
          shortDesc.length < Project.MIN_DESCRIPTION_WITHOUT_URLS) →
        Project.create (fun _ => true) "pj" 0 "p1" "T" shortDesc 0 0 none none
          none none = .ok ⟨"pj", "p1", "T", shortDesc, 0, 0, none,
            normalizeOpt none, normalizeOpt none, (none : Option (List String)).getD [],
            0, 0⟩)) ∧
    Project.create (fun _ => true) "pj" 0 "p1" "T" shortDesc 0 0 none none
      none none = .error (.invalidDescription Project.suffMsg) :=
  ⟨project_sufficiency_rule.1 (fun _ => true) "pj" 0 "p1" "T" shortDesc 0 0
      none none none none rfl rfl rfl rfl rfl rfl rfl rfl,
    (project_sufficiency_rule.1 (fun _ => true) "pj" 0 "p1" "T" shortDesc 0 0
      none none none none rfl rfl rfl rfl rfl rfl rfl rfl).1.mpr
      ⟨rfl, by decide⟩⟩

/-- Counterexample to C8: a Project input violating both the numeric
`order_index` bound (index −1) and the cross-field sufficiency rule (no URLs
and a 50-character description) reports `InvalidOrderIndexError`, not the
cross-field sufficiency error the claimed validation order would produce. -/
theorem project_validation_order_counterexample :
    Project.create (fun _ => true) "pj" 0 "p1" "T" shortDesc 0 (-1) none none
        none none = .error (.invalidOrderIndex (-1)) ∧
    Project.create (fun _ => true) "pj" 0 "p1" "T" shortDesc 0 (-1) none none
        none none ≠ .error (.invalidDescription Project.suffMsg) ∧
    Project.has_urls none none = false ∧
    shortDesc.length < Project.MIN_DESCRIPTION_WITHOUT_URLS ∧
    (-1 : Int) < 0 := by
  refine ⟨rfl, ?_, rfl, by decide, by decide⟩
  intro h
  rw [show Project.create (fun _ => true) "pj" 0 "p1" "T" shortDesc 0 (-1)
      none none none none = .error (.invalidOrderIndex (-1)) from rfl] at h
  exact DomainErr.noConfusion (Except.error.inj h)

/-- C8 (amended): Project validation on construction runs its checks in the
deterministic source order profile_id → title → description → dates → URLs →
technologies → order_index → cross-field description sufficiency; the
numeric `order_index` bound therefore precedes the cross-field sufficiency
check, and when both are violated `InvalidOrderIndexError` is the error
reported. -/
theorem project_validation_order_amended
    (urlOk : String → Bool) (newId : String) (now : Int)
    (profile_id title description : String) (sd oi : Int)
    (ed : Option Int) (lu ru : Option String) (techs : Option (List String))
    (h1 : validate_profile_id profile_id = .ok ())
    (h2 : Project.validateTitle title = .ok ())
    (h3 : Project.validateDescription description = .ok ())
    (hdt : validateDates sd ed = .ok ())
    (h5 : validateOptUrl urlOk lu = .ok (normalizeOpt lu))
    (h6 : validateOptUrl urlOk ru = .ok (normalizeOpt ru))
    (h7 : Project.validateTechnologies (techs.getD []) = .ok ())
    (hoi : oi < 0) :
    Project.create urlOk newId now profile_id title description sd oi ed lu ru
      techs = .error (.invalidOrderIndex oi) := by
  have hx : Project.validateOrderIndex oi = .error (.invalidOrderIndex oi) := by
    unfold Project.validateOrderIndex
    rw [if_pos hoi]
  unfold Project.create Project.init
  rw [h1, h2, h3, hdt, h5, h6, h7, hx]
  rfl

/-- Witness for the amended C8: the concrete doubly-violating input reports
the order-index error. -/
theorem project_validation_order_amended_witness :
    Project.create (fun _ => true) "pj" 0 "p1" "T" shortDesc 0 (-1) none none
      none none = .error (.invalidOrderIndex (-1)) :=
  project_validation_order_amended (fun _ => true) "pj" 0 "p1" "T" shortDesc
    0 (-1) none none none none rfl rfl rfl rfl rfl rfl rfl (by decide)

/-- C7: supplying an empty or whitespace-only string for an optional string
field (Profile.bio, Profile.location, Profile.avatar_url,
WorkExperience.description, Project.live_url, Project.repo_url) at
construction or update raises no error: the field is silently normalized to
absent, and length/URL-format validation applies only to non-blank values
(other supplied fields assumed valid). -/
theorem optional_blank_normalized :
    (∀ (urlOk : String → Bool) (newId : String) (now : Int)
        (name headline b l a : String),
        Profile.validateName name = .ok () →
        Profile.validateHeadline headline = .ok () →
        isBlank b = true → isBlank l = true → isBlank a = true →
        Profile.create urlOk newId now name headline (some b) (some l)
          (some a) = .ok ⟨newId, name, headline, none, none, none, now, now⟩) ∧
    (∀ (p : Profile) (now : Int) (b l : String),
        isBlank b = true → isBlank l = true →
        Profile.update_basic_info p now none none (some b) (some l) =
          .ok { p with bio := none, location := none, updated_at := now }) ∧
    (∀ (newId : String) (now : Int) (profile_id role company ds : String)
        (sd oi : Int),
        validate_profile_id profile_id = .ok () →
        WorkExperience.validateRole role = .ok () →
        WorkExperience.validateCompany company = .ok () →
        isBlank ds = true →
        WorkExperience.validateOrderIndex oi = .ok () →
        WorkExperience.create newId now profile_id role company sd oi (some ds)
          none none = .ok ⟨newId, profile_id, role, company, sd, oi, none,
            none, [], now, now⟩) ∧
    (∀ (urlOk : String → Bool) (newId : String) (now : Int)
        (profile_id title description lus rus : String) (sd oi : Int),
        validate_profile_id profile_id = .ok () →
        Project.validateTitle title = .ok () →
        Project.validateDescription description = .ok () →
        Project.validateOrderIndex oi = .ok () →
        Project.validateSufficiency description none none = .ok () →
        isBlank lus = true → isBlank rus = true →
        Project.create urlOk newId now profile_id title description sd oi none
          (some lus) (some rus) none = .ok ⟨newId, profile_id, title,
            description, sd, oi, none, none, none, [], now, now⟩) ∧
    (∀ (urlOk : String → Bool) (p : Project) (now : Int) (lus rus : String),
        isBlank lus = true → isBlank rus = true →
        Project.validateSufficiency p.description none none = .ok () →
        Project.update_urls urlOk p now (some lus) (some rus) =
          .ok { p with live_url := none, repo_url := none, updated_at := now }) := by
  refine ⟨?_, ?_, ?_, ?_, ?_⟩
  · intro urlOk newId now name headline b l a hn hh hb hl ha
    unfold Profile.create Profile.init
    rw [hn, hh, validateBio_blank hb, validateLocation_blank hl,
      validateOptUrl_blank ha]
    rfl
  · intro p now b l hb hl
    unfold Profile.update_basic_info
    dsimp only
    rw [validateBio_blank hb, validateLocation_blank hl]
    rfl
  · intro newId now profile_id role company ds sd oi h1 h2 h3 hds h6
    rw [work_experience_create_reduce h1 h2 h3
      (validateOptDescription_blank hds)
      (show WorkExperience.validateResponsibilities
        ((none : Option (List String)).getD []) = .ok () from rfl) h6]
    rfl
  · intro urlOk newId now profile_id title description lus rus sd oi h1 h2 h3
      hoi hsuff hlus hrus
    have hnl : normalizeOpt (some lus) = none := by
      unfold normalizeOpt
      dsimp only
      rw [if_pos hlus]
    have hnr : normalizeOpt (some rus) = none := by
      unfold normalizeOpt
      dsimp only
      rw [if_pos hrus]
    rw [project_create_reduce h1 h2 h3
      (validateOptUrl_ok fun s hs => Or.inl (Option.some.inj hs ▸ hlus))
      (validateOptUrl_ok fun s hs => Or.inl (Option.some.inj hs ▸ hrus))
      (show Project.validateTechnologies
        ((none : Option (List String)).getD []) = .ok () from rfl)
      hoi, hnl, hnr, hsuff]
    rfl
  · intro urlOk p now lus rus hlus hrus hsuff
    rw [project_update_urls_reduce
      (show validateOptUrl urlOk (mergePatch (some lus) p.live_url) = .ok none
        from validateOptUrl_blank hlus)
      (show validateOptUrl urlOk (mergePatch (some rus) p.repo_url) = .ok none
        from validateOptUrl_blank hrus), hsuff]
    rfl

/-- Witness for C7: blank bio, location and avatar URL at Profile creation
are all normalized to absent without error. -/
theorem optional_blank_normalized_witness :
    (Profile.validateName "Ada" = .ok () ∧ isBlank " " = true ∧
      isBlank "" = true ∧ isBlank "  " = true) ∧
    Profile.create (fun _ => false) "id1" 0 "Ada" "Dev" (some " ") (some "")
      (some "  ") = .ok ⟨"id1", "Ada", "Dev", none, none, none, 0, 0⟩ :=
  ⟨⟨rfl, by decide, by decide, by decide⟩,
    optional_blank_normalized.1 (fun _ => false) "id1" 0 "Ada" "Dev" " " ""
      "  " rfl rfl (by decide) (by decide) (by decide)⟩
